import Mathlib

/-!
Verification of the 3D_Interface building-editor core against its
specification.  The TypeScript sources (`src/BuildingScene.tsx`,
`src/buildingHelper.tsx`) are shallowly embedded below: coordinates are
modelled by exact rationals (`ℚ`), JavaScript arrays by `List`, optional
fields by `Option`, `parseFloat`/`parseInt` results by `Option ℚ` /
`Option ℤ` (`none` models `NaN`, i.e. unparsable input), and React state
updates by explicit state-passing functions.
-/

/-- A 2D point, as the `[number, number]` tuples used throughout the code. -/
abbrev Pt := ℚ × ℚ

/-- The 2D cross product `u.x * v.y - u.y * v.x`.  Used only to state the
spec-level convexity and interiority hypotheses of the `pointInPolygon`
claims; it does not occur in the code itself. -/
def cross (u v : Pt) : ℚ := u.1 * v.2 - u.2 * v.1

/-- The `PolygonData` record of `BuildingScene.tsx` / `buildingHelper.tsx`:
a building footprint with extrusion height and floor metadata.
(`originalIndex` is computed only during export and is carried separately
there, so it is not a field here.) -/
structure PolygonData where
  vertices : List Pt
  height : ℚ
  isMain : Bool
  buffer : Option (List Pt) := none
  floorLevel : Option ℤ := none
  baseBuilding : Option ℕ := none
deriving DecidableEq, Repr

/-- Scene-level state of the `BuildingScene` component: the building
collection and the undo history (a stack of snapshots, top at the end,
exactly as the JS array used with push / pop-from-the-end). -/
structure SceneState where
  buildingList : List PolygonData
  history : List (List PolygonData)
deriving DecidableEq, Repr

/-- The element-wise deep copy performed by `pushHistory`
(`vertices: b.vertices.map(v => [...v])`, same for `buffer`). -/
def cloneBuilding (b : PolygonData) : PolygonData :=
  { vertices := b.vertices.map (fun v => (v.1, v.2))
    height := b.height
    isMain := b.isMain
    buffer := b.buffer.map (fun l => l.map (fun v => (v.1, v.2)))
    floorLevel := b.floorLevel
    baseBuilding := b.baseBuilding }

/-- `pushHistory` (BuildingScene.tsx L340-349): appends a deep-copied
snapshot of the current building list to the history stack. -/
def pushHistory (st : SceneState) : SceneState :=
  { st with history := st.history ++ [st.buildingList.map cloneBuilding] }

/-- The Ctrl+Z branch of `handleKeyDown` (BuildingScene.tsx L417-424):
if the history is non-empty, replace the building list by the last
snapshot and drop it from the stack; otherwise do nothing. -/
def undo (st : SceneState) : SceneState :=
  match st.history.getLast? with
  | none => st
  | some last => { buildingList := last, history := st.history.dropLast }

/-- `handlePreciseExtrude` (BuildingScene.tsx L351-371).  `selectedForExtrude`
and the `parseFloat` of the height input are passed explicitly; `none` for
the height models an unparsable input (`NaN`).  On validation failure the
function alerts and returns without touching state. -/
def handlePreciseExtrude (st : SceneState) (selectedForExtrude : Option ℕ)
    (extrudeHeight : Option ℚ) : SceneState :=
  match selectedForExtrude with
  | none => st
  | some sel =>
    match extrudeHeight with
    | none => st
    | some h =>
      if h ≤ 0 then st
      else
        let st1 := pushHistory st
        { st1 with
          buildingList := st1.buildingList.mapIdx (fun i b =>
            if i = sel then { b with height := h } else b) }

/-- `handleCreateFloors` (BuildingScene.tsx L374-413).  `floorHeight` is the
`parseFloat` of the height input, `numberOfFloors` the `parseInt` of the
floor-count input (`none` models `NaN`).  Validation happens before
`pushHistory`; the index check `!selectedBuilding` happens after it, exactly
as in the source.  For a count `n` the loop `for (i = 0; i < floors; i++)`
appends `n` clones with `floorLevel = i + 1` and `baseBuilding` the base
index; the base building itself is not modified. -/
def handleCreateFloors (st : SceneState) (selectedForFloors : Option ℕ)
    (floorHeight : Option ℚ) (numberOfFloors : Option ℤ) : SceneState :=
  match selectedForFloors with
  | none => st
  | some sel =>
    match floorHeight, numberOfFloors with
    | none, _ => st
    | some _, none => st
    | some h, some n =>
      if h ≤ 0 then st
      else if n ≤ 0 ∨ 20 < n then st
      else
        let st1 := pushHistory st
        match st.buildingList[sel]? with
        | none => st1
        | some selB =>
          let newBuildings := (List.range n.toNat).map (fun (i : ℕ) =>
            { vertices := selB.vertices.map (fun v => (v.1, v.2))
              height := h
              isMain := false
              buffer := selB.buffer.map (fun l => l.map (fun v => (v.1, v.2)))
              floorLevel := some ((i : ℤ) + 1)
              baseBuilding := some sel : PolygonData })
          { st1 with buildingList := st1.buildingList ++ newBuildings }

/-- The Delete branch of `handleKeyDown` (BuildingScene.tsx L426-430): with a
selection, push history and remove the building at the selected index
(`prev.filter((_, i) => i !== selected)`). -/
def handleDelete (st : SceneState) (selected : Option ℕ) : SceneState :=
  match selected with
  | none => st
  | some sel =>
    let st1 := pushHistory st
    { st1 with
      buildingList :=
        ((st1.buildingList.enum.filter (fun p => p.1 ≠ sel)).map Prod.snd) }

/-- `computeSceneCenter` (buildingHelper.tsx L22-33): arithmetic mean of
every vertex of every building plus every road vertex.  (In ℚ the empty
case yields 0/0 = 0 where JS would yield NaN; all theorems below use it
only on non-empty scenes.) -/
def computeSceneCenter (buildings : List PolygonData)
    (roads : List (List Pt)) : Pt :=
  let allVerts := (buildings.map (·.vertices)).flatten ++ roads.flatten
  let n : ℚ := allVerts.length
  ((allVerts.map Prod.fst).sum / n, (allVerts.map Prod.snd).sum / n)

/-- `finishPolygon` (buildingHelper.tsx L401-449), acting on the building
list held by `CanvasContent`.  Fewer than 3 points: alert and return with
nothing changed.  Otherwise a new building with `height = 0.1` is appended
whose vertices are the drawn points translated back by the scene center.
The `isShapeInsideMainSite` probe in the middle only logs, so it is not
modelled.  Note this component has no access to `pushHistory`. -/
def finishPolygon (buildingList : List PolygonData) (roads : List (List Pt))
    (polygonPoints : List Pt) : List PolygonData :=
  if polygonPoints.length < 3 then buildingList
  else
    let c := computeSceneCenter buildingList roads
    let vertices := polygonPoints.map (fun p => (p.1 + c.1, p.2 + c.2))
    buildingList ++ [{ vertices := vertices, height := 1/10, isMain := false }]

/-- The rectangle-completion branch of `handlePointerUp`
(buildingHelper.tsx L846-912): if both extents exceed `0.5`, append an
axis-aligned rectangle building (`height = 0.1`) and select it; otherwise
nothing is created.  Returns the new list and the `setSelected` argument.
As with `finishPolygon`, no history push exists on this path. -/
def completeRectangle (buildingList : List PolygonData)
    (roads : List (List Pt)) (startPoint currentPoint : Pt) :
    List PolygonData × Option ℕ :=
  let width := |currentPoint.1 - startPoint.1|
  let height := |currentPoint.2 - startPoint.2|
  if 1/2 < width ∧ 1/2 < height then
    let minX := min startPoint.1 currentPoint.1
    let maxX := max startPoint.1 currentPoint.1
    let minY := min startPoint.2 currentPoint.2
    let maxY := max startPoint.2 currentPoint.2
    let c := computeSceneCenter buildingList roads
    let adjustedVertices : List Pt :=
      [(minX + c.1, minY + c.2), (maxX + c.1, minY + c.2),
       (maxX + c.1, maxY + c.2), (minX + c.1, maxY + c.2)]
    (buildingList ++ [{ vertices := adjustedVertices, height := 1/10,
                        isMain := false }],
     some buildingList.length)
  else (buildingList, none)

/-- Lifting of `finishPolygon` to scene level: `CanvasContent` updates the
building list through `setBuildingList` and has no access to the history
state, so the history component is untouched. -/
def addPolygonScene (st : SceneState) (roads : List (List Pt))
    (polygonPoints : List Pt) : SceneState :=
  { st with buildingList := finishPolygon st.buildingList roads polygonPoints }

/-- Lifting of the rectangle completion to scene level; again the history
is untouched because the canvas handler cannot push to it. -/
def addRectangleScene (st : SceneState) (roads : List (List Pt))
    (startPoint currentPoint : Pt) : SceneState :=
  { st with
    buildingList :=
      (completeRectangle st.buildingList roads startPoint currentPoint).1 }

/-- Deep copies are equal to the originals: cloning is element-wise copy. -/
theorem cloneBuilding_eq (b : PolygonData) : cloneBuilding b = b := by
  cases b with
  | mk v h m buf fl bb => cases buf <;> simp [cloneBuilding]

theorem map_cloneBuilding_eq (l : List PolygonData) :
    l.map cloneBuilding = l := by
  have h : cloneBuilding = id := funext cloneBuilding_eq
  rw [h, List.map_id]

theorem pushHistory_history (st : SceneState) :
    (pushHistory st).history = st.history ++ [st.buildingList] := by
  simp [pushHistory, map_cloneBuilding_eq]

theorem pushHistory_buildingList (st : SceneState) :
    (pushHistory st).buildingList = st.buildingList := rfl

theorem undo_of_concat (bl X : List PolygonData) (h : List (List PolygonData)) :
    undo ⟨X, h ++ [bl]⟩ = ⟨bl, h⟩ := by
  simp [undo]

/-- Convenient form of the three history-pushing operations: each produces a
state whose history is the old history with the pre-mutation list appended. -/
theorem handlePreciseExtrude_eq (st : SceneState) (sel : ℕ) (h : ℚ)
    (hpos : 0 < h) :
    handlePreciseExtrude st (some sel) (some h) =
      ⟨st.buildingList.mapIdx (fun i b => if i = sel then { b with height := h } else b),
       st.history ++ [st.buildingList]⟩ := by
  simp [handlePreciseExtrude, not_le.2 hpos, pushHistory, map_cloneBuilding_eq]

theorem handleDelete_eq (st : SceneState) (sel : ℕ) :
    handleDelete st (some sel) =
      ⟨(st.buildingList.enum.filter (fun p => p.1 ≠ sel)).map Prod.snd,
       st.history ++ [st.buildingList]⟩ := by
  simp [handleDelete, pushHistory, map_cloneBuilding_eq]

/-- A concrete 10x10 site-boundary building used by several concrete
evaluations below. -/
def sampleMain : PolygonData :=
  { vertices := [(0,0), (10,0), (10,10), (0,10)], height := 1, isMain := true }

/-- A concrete non-main base building (a 2x2 square footprint). -/
def sampleBase : PolygonData :=
  { vertices := [(2,2), (4,2), (4,4), (2,4)], height := 5, isMain := false }

/-- A concrete scene holding the site boundary and one building, with an
empty undo history. -/
def sampleScene : SceneState :=
  { buildingList := [sampleMain, sampleBase], history := [] }

theorem cloneVerts_eq (l : List Pt) : l.map (fun v => (v.1, v.2)) = l := by
  simp

theorem cloneBuffer_eq (o : Option (List Pt)) :
    o.map (fun l => l.map (fun v => (v.1, v.2))) = o := by
  cases o <;> simp

/-- Claim C1 as written fails on the code: for the floor count `n = 2` the
operation appends two new buildings (not `n - 1 = 1`), and the base
building keeps `floorLevel = none` instead of being tagged `0`. -/
theorem c1_counterexample :
    ¬ ((handleCreateFloors sampleScene (some 1) (some 3) (some 2)).buildingList.length
          = sampleScene.buildingList.length + 1
        ∧ ((handleCreateFloors sampleScene (some 1) (some 3)
              (some 2)).buildingList[1]?.map PolygonData.floorLevel)
            = some (some 0)) := by
  decide

/-- Claim C1 (amended): for a selected base building, floor height `h > 0`
and floor count `1 ≤ n ≤ 20`, `handleCreateFloors` appends exactly `n` new
buildings cloned from the base footprint, the `i`-th (`i = 1..n`) carrying
`floorLevel = i` and `baseBuilding` = the base index; every pre-existing
building, including the base (whose `floorLevel` stays absent, which
consumers read as ground level 0), is unchanged, and the pre-mutation list
is pushed on the history. -/
theorem c1_floorstack (st : SceneState) (sel : ℕ) (h : ℚ) (n : ℤ)
    (base : PolygonData) (hh : 0 < h) (hn0 : 0 < n) (hn20 : n ≤ 20)
    (hbase : st.buildingList[sel]? = some base) :
    (handleCreateFloors st (some sel) (some h) (some n)).buildingList.length
        = st.buildingList.length + n.toNat
      ∧ (∀ i, i < st.buildingList.length →
          (handleCreateFloors st (some sel) (some h) (some n)).buildingList[i]?
            = st.buildingList[i]?)
      ∧ (∀ i, i < n.toNat →
          (handleCreateFloors st (some sel) (some h) (some n)).buildingList[
              st.buildingList.length + i]?
            = some { vertices := base.vertices, height := h, isMain := false,
                     buffer := base.buffer, floorLevel := some ((i : ℤ) + 1),
                     baseBuilding := some sel })
      ∧ (handleCreateFloors st (some sel) (some h) (some n)).history
          = st.history ++ [st.buildingList] := by
  have hcond : ¬ (n ≤ 0 ∨ 20 < n) := by
    push_neg
    exact ⟨hn0, hn20⟩
  simp only [handleCreateFloors, not_le.2 hh, if_false, hcond, hbase,
    pushHistory, map_cloneBuilding_eq, cloneVerts_eq, cloneBuffer_eq,
    Option.map_id']
  refine ⟨by simp, ?_, ?_, by simp⟩
  · intro i hi
    rw [List.getElem?_append_left hi]
  · intro i hi
    rw [List.getElem?_append_right (Nat.le_add_right _ _), Nat.add_sub_cancel_left,
      List.getElem?_map, List.getElem?_range hi]
    simp

/-- Witness for `c1_floorstack` at a concrete input: stacking 2 floors of
height 3 on `sampleBase` (index 1) in `sampleScene`. -/
theorem c1_floorstack_witness :
    (handleCreateFloors sampleScene (some 1) (some 3) (some 2)).buildingList.length
        = sampleScene.buildingList.length + (2 : ℤ).toNat
      ∧ (∀ i, i < sampleScene.buildingList.length →
          (handleCreateFloors sampleScene (some 1) (some 3) (some 2)).buildingList[i]?
            = sampleScene.buildingList[i]?)
      ∧ (∀ i, i < (2 : ℤ).toNat →
          (handleCreateFloors sampleScene (some 1) (some 3) (some 2)).buildingList[
              sampleScene.buildingList.length + i]?
            = some { vertices := sampleBase.vertices, height := 3, isMain := false,
                     buffer := sampleBase.buffer, floorLevel := some ((i : ℤ) + 1),
                     baseBuilding := some 1 })
      ∧ (handleCreateFloors sampleScene (some 1) (some 3) (some 2)).history
          = sampleScene.history ++ [sampleScene.buildingList] :=
  c1_floorstack sampleScene 1 3 2 sampleBase (by norm_num) (by norm_num)
    (by norm_num) (by decide)

/-- Claim C2 as written fails on the code: the draw-tool completion (`add`)
does not push history, so `add` followed by `undo()` does not restore the
pre-operation collection.  Concretely, adding a triangle to `sampleScene`
(whose history is empty) and undoing leaves the new building in place. -/
theorem c2_counterexample :
    (undo (addPolygonScene sampleScene [] [(0,0), (1,0), (0,1)])).buildingList
      ≠ sampleScene.buildingList := by
  decide

/-- Claim C2 (amended): `undo()` is a strict inverse of exactly the
operations that push history — precise extrude, floor stacking and delete —
whenever their validation passes; the canvas-level mutations (add, move,
push/pull, extrude-drag) push no snapshot, so `undo` does not invert them
(see `c2_counterexample`). -/
theorem c2_undo_inverse :
    (∀ st sel h, 0 < h →
        undo (handlePreciseExtrude st (some sel) (some h)) = st)
    ∧ (∀ st sel h n, 0 < h → 0 < n → n ≤ 20 →
        undo (handleCreateFloors st (some sel) (some h) (some n)) = st)
    ∧ (∀ st sel, undo (handleDelete st (some sel)) = st) := by
  refine ⟨?_, ?_, ?_⟩
  · intro st sel h hpos
    rw [handlePreciseExtrude_eq st sel h hpos, undo_of_concat]
  · intro st sel h n hh hn0 hn20
    have hcond : ¬ (n ≤ 0 ∨ 20 < n) := by
      push_neg
      exact ⟨hn0, hn20⟩
    simp only [handleCreateFloors, not_le.2 hh, if_false, hcond, pushHistory,
      map_cloneBuilding_eq]
    cases hsel : st.buildingList[sel]? <;>
      exact undo_of_concat _ _ _
  · intro st sel
    rw [handleDelete_eq, undo_of_concat]

/-- Witness for `c2_undo_inverse` at concrete inputs on `sampleScene`. -/
theorem c2_undo_inverse_witness :
    undo (handlePreciseExtrude sampleScene (some 1) (some 12)) = sampleScene
    ∧ undo (handleCreateFloors sampleScene (some 1) (some 3) (some 2)) = sampleScene
    ∧ undo (handleDelete sampleScene (some 1)) = sampleScene :=
  ⟨c2_undo_inverse.1 sampleScene 1 12 (by norm_num),
   c2_undo_inverse.2.1 sampleScene 1 3 2 (by norm_num) (by norm_num) (by norm_num),
   c2_undo_inverse.2.2 sampleScene 1⟩

/-- Claim C3 as written fails on the code: completing a rectangle mutates
the building collection without pushing any history snapshot, so right
after the mutation the history top is not the pre-mutation collection
(here the history is still empty). -/
theorem c3_counterexample :
    (addRectangleScene sampleScene [] (0,0) (4,3)).buildingList.length
        = sampleScene.buildingList.length + 1
      ∧ (addRectangleScene sampleScene [] (0,0) (4,3)).history.getLast?
        ≠ some sampleScene.buildingList := by
  constructor
  · show ((completeRectangle sampleScene.buildingList [] (0,0) (4,3)).1).length = _
    simp only [completeRectangle]
    rw [if_pos (by norm_num)]
    simp
  · show ([] : List (List PolygonData)).getLast? ≠ _
    simp

/-- Claim C3 (amended): the scene-level mutations — precise extrude, floor
stacking and delete — push a deep-copied snapshot of the pre-mutation
collection strictly before applying their change, so immediately after
them the top of the history stack is the pre-mutation collection.  The
canvas-level mutations (rectangle/circle/polygon add, move, push/pull,
extrude-drag) mutate without pushing history (see `c3_counterexample`). -/
theorem c3_history_push :
    (∀ st sel h, 0 < h →
        (handlePreciseExtrude st (some sel) (some h)).history.getLast?
          = some st.buildingList)
    ∧ (∀ st sel h n, 0 < h → 0 < n → n ≤ 20 →
        (handleCreateFloors st (some sel) (some h) (some n)).history.getLast?
          = some st.buildingList)
    ∧ (∀ st sel, (handleDelete st (some sel)).history.getLast?
          = some st.buildingList) := by
  refine ⟨?_, ?_, ?_⟩
  · intro st sel h hpos
    rw [handlePreciseExtrude_eq st sel h hpos]
    simp
  · intro st sel h n hh hn0 hn20
    have hcond : ¬ (n ≤ 0 ∨ 20 < n) := by
      push_neg
      exact ⟨hn0, hn20⟩
    simp only [handleCreateFloors, not_le.2 hh, if_false, hcond, pushHistory,
      map_cloneBuilding_eq]
    cases hsel : st.buildingList[sel]? <;> simp
  · intro st sel
    rw [handleDelete_eq]
    simp

/-- Witness for `c3_history_push` at concrete inputs on `sampleScene`. -/
theorem c3_history_push_witness :
    (handlePreciseExtrude sampleScene (some 1) (some 12)).history.getLast?
        = some sampleScene.buildingList
    ∧ (handleCreateFloors sampleScene (some 1) (some 3) (some 2)).history.getLast?
        = some sampleScene.buildingList
    ∧ (handleDelete sampleScene (some 1)).history.getLast?
        = some sampleScene.buildingList :=
  ⟨c3_history_push.1 sampleScene 1 12 (by norm_num),
   c3_history_push.2.1 sampleScene 1 3 2 (by norm_num) (by norm_num) (by norm_num),
   c3_history_push.2.2 sampleScene 1⟩

/-- Claim C4: every listed validation failure aborts synchronously leaving
both the building collection and the history stack unchanged: a polygon
completion with fewer than 3 points, an unparsable or non-positive precise
extrusion height, an unparsable or non-positive floor height, an unparsable
floor count, and a floor count outside the accepted range `1..20`. -/
theorem c4_validation_noop :
    (∀ st roads pts, pts.length < 3 → addPolygonScene st roads pts = st)
    ∧ (∀ st sel, handlePreciseExtrude st sel none = st)
    ∧ (∀ st sel h, h ≤ 0 → handlePreciseExtrude st sel (some h) = st)
    ∧ (∀ st sel n, handleCreateFloors st sel none n = st)
    ∧ (∀ st sel h, handleCreateFloors st sel (some h) none = st)
    ∧ (∀ st sel h n, h ≤ 0 → handleCreateFloors st sel (some h) (some n) = st)
    ∧ (∀ st sel h n, n ≤ 0 ∨ 20 < n →
        handleCreateFloors st sel (some h) (some n) = st) := by
  refine ⟨?_, ?_, ?_, ?_, ?_, ?_, ?_⟩
  · intro st roads pts hlt
    simp [addPolygonScene, finishPolygon, hlt]
  · intro st sel
    cases sel <;> rfl
  · intro st sel h hle
    cases sel with
    | none => rfl
    | some s => simp [handlePreciseExtrude, hle]
  · intro st sel n
    cases sel <;> rfl
  · intro st sel h
    cases sel <;> rfl
  · intro st sel h n hle
    cases sel with
    | none => rfl
    | some s => simp [handleCreateFloors, hle]
  · intro st sel h n hn
    cases sel with
    | none => rfl
    | some s =>
      by_cases hh : h ≤ 0 <;> simp [handleCreateFloors, hh, hn]

/-- Witness for `c4_validation_noop` at concrete invalid inputs. -/
theorem c4_validation_noop_witness :
    addPolygonScene sampleScene [] [(0,0), (1,0)] = sampleScene
    ∧ handlePreciseExtrude sampleScene (some 1) none = sampleScene
    ∧ handlePreciseExtrude sampleScene (some 1) (some (-2)) = sampleScene
    ∧ handleCreateFloors sampleScene (some 1) none (some 2) = sampleScene
    ∧ handleCreateFloors sampleScene (some 1) (some 3) none = sampleScene
    ∧ handleCreateFloors sampleScene (some 1) (some 0) (some 2) = sampleScene
    ∧ handleCreateFloors sampleScene (some 1) (some 3) (some 21) = sampleScene :=
  ⟨c4_validation_noop.1 sampleScene [] [(0,0), (1,0)] (by norm_num),
   c4_validation_noop.2.1 sampleScene (some 1),
   c4_validation_noop.2.2.1 sampleScene (some 1) (-2) (by norm_num),
   c4_validation_noop.2.2.2.1 sampleScene (some 1) (some 2),
   c4_validation_noop.2.2.2.2.1 sampleScene (some 1) 3,
   c4_validation_noop.2.2.2.2.2.1 sampleScene (some 1) 0 2 (by norm_num),
   c4_validation_noop.2.2.2.2.2.2 sampleScene (some 1) 3 21 (by norm_num)⟩

/-- The `pushPullData` record stored by `handleFaceClick`
(buildingHelper.tsx L221-227); the z-components of `startPoint` and
`faceNormal` are always 0 in the code and are dropped. -/
structure PushPullData where
  buildingIdx : ℕ
  faceIndex : ℕ
  startPoint : Pt
  faceNormal : Pt
  initialVertices : List Pt
deriving DecidableEq, Repr

/-- The `extrudeData` record (buildingHelper.tsx L229-233). -/
structure ExtrudeData where
  buildingIdx : ℕ
  startHeight : ℚ
  currentHeight : ℚ
deriving DecidableEq, Repr

/-- The component state read and written by `handleBuildingClick` /
`startExtrusion`: the selection and the extrude-drag flags. -/
structure CanvasClickState where
  selected : Option ℕ
  isDraggingExtrude : Bool
  isExtrudeActive : Bool
  extrudeData : Option ExtrudeData
deriving DecidableEq, Repr

/-- `startExtrusion` (buildingHelper.tsx L369-397): a click while an
extrusion is active finalizes it; otherwise the drag state is initialized
from the clicked building's current height. -/
def startExtrusion (buildingList : List PolygonData) (cs : CanvasClickState)
    (buildingIdx : ℕ) : CanvasClickState :=
  if cs.isDraggingExtrude && cs.isExtrudeActive then
    { cs with
      isDraggingExtrude := false
      isExtrudeActive := false
      extrudeData := none }
  else
    let h := (buildingList.getD buildingIdx
      { vertices := [], height := 0, isMain := false }).height
    { cs with
      isDraggingExtrude := true
      isExtrudeActive := true
      extrudeData := some { buildingIdx := buildingIdx, startHeight := h,
                            currentHeight := h } }

/-- `handleBuildingClick` (buildingHelper.tsx L292-322): clicks on the main
building are ignored; with the extrude tool, only a flat building
(`height ≤ 0.1`) starts an extrusion; otherwise the building is selected.
The function never calls `setBuildingList`, which the unchanged second
component records (`updateShapeCoordinatesWithHeight` only logs).  An
out-of-range index never arrives from the renderer and is modelled as a
no-op. -/
def handleBuildingClick (buildingList : List PolygonData)
    (cs : CanvasClickState) (idx : ℕ) (activeTool : String) :
    CanvasClickState × List PolygonData :=
  match buildingList[idx]? with
  | none => (cs, buildingList)
  | some b =>
    if b.isMain then (cs, buildingList)
    else if activeTool = "extrude" then
      if b.height ≤ 1/10 then (startExtrusion buildingList cs idx, buildingList)
      else (cs, buildingList)
    else ({ cs with selected := some idx }, buildingList)

/-- The push/pull branch of `handleFaceClick` (buildingHelper.tsx
L1024-1086).  `len` stands for `Math.sqrt(dx*dx + dy*dy)`, which ℚ cannot
express; theorems about this function carry the hypothesis
`len * len = dx^2 + dy^2` (with `0 ≤ len`) instead.  A zero-length edge
(`len === 0`) aborts before the normal is computed. -/
def handleFaceClick (buildingList : List PolygonData)
    (buildingIdx faceIndex : ℕ) (point : Pt) (len : ℚ) :
    Option PushPullData :=
  match buildingList[buildingIdx]? with
  | none => none
  | some building =>
    if building.vertices.length = 0 then none
    else
      let verts := building.vertices
      match verts[faceIndex]?, verts[(faceIndex + 1) % verts.length]? with
      | some v1, some v2 =>
        let dx := v2.1 - v1.1
        let dy := v2.2 - v1.2
        if len = 0 then none
        else some { buildingIdx := buildingIdx, faceIndex := faceIndex,
                    startPoint := point,
                    faceNormal := (-dy / len, dx / len),
                    initialVertices := verts.map (fun v => (v.1, v.2)) }
      | _, _ => none

/-- The push/pull branch of `handlePointerMove` (buildingHelper.tsx
L758-792): project the drag vector on the stored face normal and displace
the two vertices bounding the stored face of the stored building,
recomputing from the snapshot `initialVertices` each move. -/
def pushPullMove (buildingList : List PolygonData) (pd : PushPullData)
    (point : Pt) : List PolygonData :=
  let moveVector : Pt := (point.1 - pd.startPoint.1, point.2 - pd.startPoint.2)
  let distance := moveVector.1 * pd.faceNormal.1 + moveVector.2 * pd.faceNormal.2
  buildingList.mapIdx (fun i b =>
    if i = pd.buildingIdx then
      { b with vertices := pd.initialVertices.mapIdx (fun idx v =>
          if idx = pd.faceIndex
              ∨ idx = (pd.faceIndex + 1) % pd.initialVertices.length then
            (v.1 + pd.faceNormal.1 * distance, v.2 + pd.faceNormal.2 * distance)
          else (v.1, v.2)) }
    else b)

/-- The guard `if (isPushPulling && pushPullData)` around the push/pull
move handler: without stored drag data a pointer move leaves the list
alone. -/
def pointerMovePushPull (buildingList : List PolygonData)
    (pushPullData : Option PushPullData) (point : Pt) : List PolygonData :=
  match pushPullData with
  | none => buildingList
  | some pd => pushPullMove buildingList pd point

/-- The extrude branch of `handlePointerMove` (buildingHelper.tsx
L795-816): the new height is `Math.max(0.1, 50 * (1 - mouseY))` for the
vertical viewport fraction `mouseY`, stored in the drag data and written
into the dragged building. -/
def extrudeDragMove (buildingList : List PolygonData) (ed : ExtrudeData)
    (mouseY : ℚ) : ExtrudeData × List PolygonData :=
  let newHeight := max (1/10) (50 * (1 - mouseY))
  ({ ed with currentHeight := newHeight },
   buildingList.mapIdx (fun i b =>
     if i = ed.buildingIdx then { b with height := newHeight } else b))

/-- Claim C10: clicking a Building whose `isMain` flag is set never changes
the selection, never starts any tool operation from the building-click
handler, and leaves the building collection exactly as before: the handler
returns without touching any state. -/
theorem c10_main_click_inert (buildingList : List PolygonData)
    (cs : CanvasClickState) (idx : ℕ) (activeTool : String) (b : PolygonData)
    (hb : buildingList[idx]? = some b) (hm : b.isMain = true) :
    handleBuildingClick buildingList cs idx activeTool = (cs, buildingList) := by
  simp [handleBuildingClick, hb, hm]

/-- Witness for `c10_main_click_inert`: clicking the main site boundary
(index 0 of `sampleScene`) with the select tool and a blank click state. -/
theorem c10_main_click_inert_witness :
    handleBuildingClick sampleScene.buildingList
        { selected := none, isDraggingExtrude := false,
          isExtrudeActive := false, extrudeData := none } 0 "select"
      = ({ selected := none, isDraggingExtrude := false,
           isExtrudeActive := false, extrudeData := none },
         sampleScene.buildingList) :=
  c10_main_click_inert sampleScene.buildingList _ 0 "select" sampleMain
    (by decide) (by decide)

/-- Claim C9: (a) clicking with the extrude tool on a non-flat building
(`height > 0.1`) is rejected and changes nothing; (b) clicking on a flat
building begins the extrude drag seeded with its height; (c) each
pointer-move recomputes the dragged building's height as
`max 0.1 (50 * (1 - mouseY))` — the linear viewport mapping clamped to the
strictly positive minimum 0.1 — leaving all other buildings unchanged;
(d) precise-extruding a building of height 0.1 to 12 sets its height to 12,
after which re-issuing extrude on it is rejected and its height stays 12. -/
theorem c9_extrude_behaviour :
    (∀ buildingList (cs : CanvasClickState) idx b,
        buildingList[idx]? = some b → b.isMain = false → ¬ (b.height ≤ 1/10) →
        handleBuildingClick buildingList cs idx "extrude" = (cs, buildingList))
    ∧ (∀ buildingList (cs : CanvasClickState) idx b,
        buildingList[idx]? = some b → b.isMain = false → b.height ≤ 1/10 →
        (cs.isDraggingExtrude && cs.isExtrudeActive) = false →
        handleBuildingClick buildingList cs idx "extrude"
          = ({ cs with
               isDraggingExtrude := true
               isExtrudeActive := true
               extrudeData := some { buildingIdx := idx,
                                     startHeight := b.height,
                                     currentHeight := b.height } },
             buildingList))
    ∧ (∀ buildingList (ed : ExtrudeData) mouseY b,
        buildingList[ed.buildingIdx]? = some b →
        (extrudeDragMove buildingList ed mouseY).2[ed.buildingIdx]?
            = some { b with height := max (1/10) (50 * (1 - mouseY)) }
          ∧ (0 : ℚ) < max (1/10) (50 * (1 - mouseY))
          ∧ (∀ j, j ≠ ed.buildingIdx →
              (extrudeDragMove buildingList ed mouseY).2[j]? = buildingList[j]?))
    ∧ (∀ st sel b (cs : CanvasClickState),
        st.buildingList[sel]? = some b → b.height = 1/10 → b.isMain = false →
        ∃ b2, (handlePreciseExtrude st (some sel) (some 12)).buildingList[sel]?
              = some b2
          ∧ b2.height = 12
          ∧ handleBuildingClick
                (handlePreciseExtrude st (some sel) (some 12)).buildingList
                cs sel "extrude"
              = (cs, (handlePreciseExtrude st (some sel) (some 12)).buildingList)) := by
  refine ⟨?_, ?_, ?_, ?_⟩
  · intro bl cs idx b hb hm hh
    have hh2 : ¬ b.height ≤ (10 : ℚ)⁻¹ := by rwa [one_div] at hh
    simp [handleBuildingClick, hb, hm, hh2]
  · intro bl cs idx b hb hm hh hflags
    simp only [handleBuildingClick, hb, hm, Bool.false_eq_true, if_false,
      reduceIte, hh, if_true, startExtrusion, hflags,
      List.getD_eq_getElem?_getD, Option.getD_some]
  · intro bl ed mouseY b hb
    refine ⟨?_, ?_, ?_⟩
    · simp only [extrudeDragMove, List.getElem?_mapIdx, hb, Option.map_some]
      simp
    · have : (0:ℚ) < 1/10 := by norm_num
      exact lt_max_of_lt_left this
    · intro j hj
      simp only [extrudeDragMove, List.getElem?_mapIdx, hj, if_false]
      cases bl[j]? <;> simp [hj]
  · intro st sel b cs hb hh hm
    have hup : (handlePreciseExtrude st (some sel) (some 12)).buildingList[sel]?
        = some { b with height := 12 } := by
      rw [handlePreciseExtrude_eq st sel 12 (by norm_num)]
      simp [List.getElem?_mapIdx, hb]
    refine ⟨{ b with height := 12 }, hup, rfl, ?_⟩
    simp only [handleBuildingClick, hup]
    rw [if_neg (by simp [hm])]
    norm_num

/-- A flat (not yet extruded) building used by the extrude and push/pull
witnesses. -/
def flatBase : PolygonData :=
  { vertices := [(2,2), (4,2), (4,4), (2,4)], height := 1/10, isMain := false }

/-- A scene with the site boundary and the flat building. -/
def flatScene : SceneState :=
  { buildingList := [sampleMain, flatBase], history := [] }

/-- A blank canvas click state. -/
def blankClickState : CanvasClickState :=
  { selected := none, isDraggingExtrude := false, isExtrudeActive := false,
    extrudeData := none }

/-- Witness for `c9_extrude_behaviour` at concrete inputs: the 3D building
`sampleBase` is rejected; the flat building starts a drag; a pointer move
at viewport fraction 1/2 writes the clamped height; precise extrude to 12
works once and the re-issued extrude click is rejected. -/
theorem c9_extrude_behaviour_witness :
    handleBuildingClick sampleScene.buildingList blankClickState 1 "extrude"
        = (blankClickState, sampleScene.buildingList)
    ∧ handleBuildingClick flatScene.buildingList blankClickState 1 "extrude"
        = ({ blankClickState with
             isDraggingExtrude := true
             isExtrudeActive := true
             extrudeData := some { buildingIdx := 1, startHeight := 1/10,
                                   currentHeight := 1/10 } },
           flatScene.buildingList)
    ∧ (extrudeDragMove flatScene.buildingList
          { buildingIdx := 1, startHeight := 1/10, currentHeight := 1/10 }
          (1/2)).2[1]?
        = some { flatBase with height := max (1/10) (50 * (1 - 1/2)) }
    ∧ (extrudeDragMove flatScene.buildingList
          { buildingIdx := 1, startHeight := 1/10, currentHeight := 1/10 }
          (1/2)).2[0]?
        = flatScene.buildingList[0]?
    ∧ ((handlePreciseExtrude flatScene (some 1) (some 12)).buildingList[1]?.map
          PolygonData.height) = some 12
    ∧ handleBuildingClick
          (handlePreciseExtrude flatScene (some 1) (some 12)).buildingList
          blankClickState 1 "extrude"
        = (blankClickState,
           (handlePreciseExtrude flatScene (some 1) (some 12)).buildingList) := by
  have h1 := c9_extrude_behaviour.1 sampleScene.buildingList blankClickState 1
    sampleBase (by decide) (by decide) (by norm_num [sampleBase])
  have h2 := c9_extrude_behaviour.2.1 flatScene.buildingList blankClickState 1
    flatBase rfl rfl (by norm_num [flatBase]) rfl
  have h3 := c9_extrude_behaviour.2.2.1 flatScene.buildingList
    { buildingIdx := 1, startHeight := 1/10, currentHeight := 1/10 } (1/2)
    flatBase rfl
  obtain ⟨b2, hb2, hb2h, hb2click⟩ := c9_extrude_behaviour.2.2.2 flatScene 1
    flatBase blankClickState rfl rfl rfl
  refine ⟨h1, h2, h3.1, h3.2.2 0 (by norm_num), ?_, hb2click⟩
  rw [hb2]
  simp [hb2h]

/-- Claim C7: clicking a zero-length edge (its two endpoint vertices
coincide, so `len = sqrt 0 = 0`) starts no push/pull operation — the
handler returns before computing the normal, so no division by zero ever
happens — and with no stored drag data the pointer-move handler leaves the
building collection unchanged. -/
theorem c7_zero_length_edge (buildingList : List PolygonData)
    (idx fi : ℕ) (pt : Pt) (len : ℚ) (b : PolygonData) (v1 v2 : Pt)
    (hb : buildingList[idx]? = some b)
    (hv1 : b.vertices[fi]? = some v1)
    (hv2 : b.vertices[(fi + 1) % b.vertices.length]? = some v2)
    (heq : v1 = v2)
    (hlen : len * len = (v2.1 - v1.1)^2 + (v2.2 - v1.2)^2) :
    handleFaceClick buildingList idx fi pt len = none
    ∧ ∀ q, pointerMovePushPull buildingList none q = buildingList := by
  subst heq
  have hl0 : len = 0 := by
    have h0 : len * len = 0 := by
      rw [hlen]
      ring
    exact mul_self_eq_zero.mp h0
  have hfi : fi < b.vertices.length := (List.getElem?_eq_some.mp hv1).1
  have hne : ¬ (b.vertices.length = 0) := by omega
  refine ⟨?_, fun q => rfl⟩
  simp only [handleFaceClick, hb, hne, if_false, hv1, hv2, hl0, if_true,
    reduceIte]

/-- A degenerate building whose first edge has coinciding endpoints. -/
def degenerateBuilding : PolygonData :=
  { vertices := [(0,0), (0,0), (1,0)], height := 1/10, isMain := false }

/-- Witness for `c7_zero_length_edge`: clicking edge 0 of the degenerate
building is a no-op. -/
theorem c7_zero_length_edge_witness :
    handleFaceClick [degenerateBuilding] 0 0 (5,5) 0 = none
    ∧ pointerMovePushPull [degenerateBuilding] none (3,3) = [degenerateBuilding] :=
  ⟨(c7_zero_length_edge [degenerateBuilding] 0 0 (5,5) 0 degenerateBuilding
      (0,0) (0,0) rfl rfl rfl rfl (by norm_num)).1,
   (c7_zero_length_edge [degenerateBuilding] 0 0 (5,5) 0 degenerateBuilding
      (0,0) (0,0) rfl rfl rfl rfl (by norm_num)).2 (3,3)⟩

/-- Claim C6: clicking edge `(fi, fi+1 mod V)` of a building stores the
edge's unit outward normal (the normalized perpendicular of the edge
vector) and a snapshot of the vertex array; every subsequent pointer-move
to a ground point `cur` replaces the building's vertices by the snapshot
with vertices `fi` and `(fi+1) mod V` each displaced by `d` times that
unit normal, where `d` is the scalar projection of `cur - dragStart` onto
the normal; all other vertices, and all other buildings, are unchanged.
`len` models `Math.sqrt(dx^2 + dy^2)` via the hypothesis
`len * len = dx^2 + dy^2`, `0 < len`. -/
theorem c6_pushpull_displacement (buildingList : List PolygonData)
    (idx fi : ℕ) (pt : Pt) (len : ℚ) (b : PolygonData) (v1 v2 : Pt)
    (hb : buildingList[idx]? = some b)
    (hv1 : b.vertices[fi]? = some v1)
    (hv2 : b.vertices[(fi + 1) % b.vertices.length]? = some v2)
    (hlen : len * len = (v2.1 - v1.1)^2 + (v2.2 - v1.2)^2)
    (hpos : 0 < len) :
    ∃ pd, handleFaceClick buildingList idx fi pt len = some pd
      ∧ pd.buildingIdx = idx ∧ pd.faceIndex = fi ∧ pd.startPoint = pt
      ∧ pd.faceNormal = (-(v2.2 - v1.2) / len, (v2.1 - v1.1) / len)
      ∧ pd.faceNormal.1 ^ 2 + pd.faceNormal.2 ^ 2 = 1
      ∧ pd.initialVertices = b.vertices
      ∧ ∀ cur : Pt,
          (∀ j, j ≠ idx → (pushPullMove buildingList pd cur)[j]?
              = buildingList[j]?)
          ∧ ∃ b2, (pushPullMove buildingList pd cur)[idx]? = some b2
              ∧ b2.height = b.height ∧ b2.isMain = b.isMain
              ∧ b2.buffer = b.buffer ∧ b2.floorLevel = b.floorLevel
              ∧ b2.baseBuilding = b.baseBuilding
              ∧ b2.vertices.length = b.vertices.length
              ∧ ∀ k v, b.vertices[k]? = some v →
                  b2.vertices[k]? = some
                    (if k = fi ∨ k = (fi + 1) % b.vertices.length then
                      (v.1 + pd.faceNormal.1 *
                          ((cur.1 - pt.1) * pd.faceNormal.1
                            + (cur.2 - pt.2) * pd.faceNormal.2),
                       v.2 + pd.faceNormal.2 *
                          ((cur.1 - pt.1) * pd.faceNormal.1
                            + (cur.2 - pt.2) * pd.faceNormal.2))
                    else v) := by
  have hlen0 : len ≠ 0 := ne_of_gt hpos
  have hfi : fi < b.vertices.length := (List.getElem?_eq_some.mp hv1).1
  have hne : ¬ (b.vertices.length = 0) := by omega
  refine ⟨{ buildingIdx := idx, faceIndex := fi, startPoint := pt,
            faceNormal := (-(v2.2 - v1.2) / len, (v2.1 - v1.1) / len),
            initialVertices := b.vertices.map (fun v => (v.1, v.2)) },
    ?_, rfl, rfl, rfl, rfl, ?_, cloneVerts_eq _, ?_⟩
  · simp only [handleFaceClick, hb, hne, if_false, hv1, hv2, hlen0,
      reduceIte]
  · have hsq : (v2.2 - v1.2)^2 + (v2.1 - v1.1)^2 = len^2 := by
      rw [sq]
      linarith [hlen]
    field_simp
    linarith [hsq]
  · intro cur
    constructor
    · intro j hj
      simp only [pushPullMove, List.getElem?_mapIdx]
      cases buildingList[j]? <;> simp [hj]
    · simp only [pushPullMove, List.getElem?_mapIdx, hb, Option.map_some,
        cloneVerts_eq, ite_true, reduceIte]
      refine ⟨_, rfl, rfl, rfl, rfl, rfl, rfl, ?_, ?_⟩
      · simp
      · intro k v hkv
        simp only [List.getElem?_mapIdx, hkv, Option.map_some]
        simp

/-- A building whose first edge runs from (0,0) to (3,4), so the edge
length is exactly 5 and the unit normal is rational. -/
def pushPullBuilding : PolygonData :=
  { vertices := [(0,0), (3,4), (0,8)], height := 1/10, isMain := false }

/-- The drag data stored for a click on edge 0 of `pushPullBuilding`. -/
def pushPullDataW : PushPullData :=
  { buildingIdx := 0, faceIndex := 0, startPoint := (0,0),
    faceNormal := (-((4:ℚ) - 0) / 5, ((3:ℚ) - 0) / 5),
    initialVertices := [(0,0), (3,4), (0,8)] }

/-- Witness for `c6_pushpull_displacement`: clicking edge 0 of
`pushPullBuilding` stores the unit normal (-4/5, 3/5), and a pointer move
to (1,0) displaces exactly the two edge vertices by the projection
-4/5 along it. -/
theorem c6_pushpull_displacement_witness :
    handleFaceClick [pushPullBuilding] 0 0 (0,0) 5 = some pushPullDataW
    ∧ pushPullDataW.faceNormal.1 ^ 2 + pushPullDataW.faceNormal.2 ^ 2 = 1
    ∧ (pushPullMove [pushPullBuilding] pushPullDataW (1,0))[0]?.map
        PolygonData.vertices
      = some [((16:ℚ)/25, -((12:ℚ)/25)), ((91:ℚ)/25, (88:ℚ)/25),
              ((0:ℚ), (8:ℚ))] := by
  obtain ⟨pd, h1, hbi, hfid, hsp, hn, hunit, hinit, hmove⟩ :=
    c6_pushpull_displacement [pushPullBuilding] 0 0 (0,0) 5 pushPullBuilding
      (0,0) (3,4) rfl rfl rfl (by norm_num) (by norm_num)
  have hpd : pd = pushPullDataW := by
    cases pd
    simp only at hbi hfid hsp hn hinit
    simp only [pushPullDataW, hbi, hfid, hsp, hn, hinit]
    norm_num [pushPullBuilding]
  subst hpd
  refine ⟨h1, hunit, ?_⟩
  obtain ⟨hother, b2, hb2, hh, hm, hbuf, hfl, hbb, hlen2, hvert⟩ := hmove (1,0)
  rw [hb2, Option.map_some']
  have hv0 := hvert 0 (0,0) rfl
  have hv1 := hvert 1 (3,4) rfl
  have hv2 := hvert 2 (0,8) rfl
  norm_num [pushPullDataW, pushPullBuilding] at hv0 hv1 hv2
  have hlist : b2.vertices
      = [((16:ℚ)/25, -((12:ℚ)/25)), ((91:ℚ)/25, (88:ℚ)/25), ((0:ℚ), (8:ℚ))] := by
    have hL : b2.vertices.length = 3 := by
      rw [hlen2]
      rfl
    apply List.ext_getElem?
    intro n
    match n with
    | 0 => simpa using hv0
    | 1 => simpa using hv1
    | 2 => simpa using hv2
    | (m+3) =>
      rw [List.getElem?_eq_none, List.getElem?_eq_none]
      · simp
      · rw [hL]
        omega
  rw [hlist]

/-- The per-edge test of the even-odd ray cast (body of the loop in
`isPointInPolygon`, buildingHelper.tsx L1161-1175 and its identical local
copy in BuildingScene.tsx L89-99): `vi` is the current vertex, `vj` the
previous one; the test is
`((yi > y) !== (yj > y)) && (x < (xj - xi) * (y - yi) / (yj - yi) + xi)`. -/
def pipCond (x y : ℚ) (vj vi : Pt) : Bool :=
  (decide (y < vi.2) != decide (y < vj.2)) &&
  decide (x < (vj.1 - vi.1) * (y - vi.2) / (vj.2 - vi.2) + vi.1)

/-- `isPointInPolygon` (buildingHelper.tsx L1161-1175): even-odd ray
casting; the loop `for (i = 0, j = n - 1; i < n; j = i++)` pairs each
vertex `i` with its cyclic predecessor `j` and toggles `inside` on each
crossing. -/
def isPointInPolygon (point : Pt) (polygon : List Pt) : Bool :=
  (List.range polygon.length).foldl
    (fun inside i =>
      if pipCond point.1 point.2
          (polygon.getD ((i + polygon.length - 1) % polygon.length) (0,0))
          (polygon.getD i (0,0))
        then !inside else inside)
    false

/-- JavaScript `Math.round`: round half toward positive infinity. -/
def jsRound (q : ℚ) : ℤ := ⌊q + 1/2⌋

/-- One corner record of the grid-coordinates export
(BuildingScene.tsx L133-159). -/
structure Corner where
  index : ℕ
  position : String
  x : ℤ
  y : ℤ
  z : ℚ
deriving DecidableEq, Repr

/-- The `zPosition` record of an exported floor (BuildingScene.tsx
L170-174). -/
structure ZPosition where
  base : ℚ
  top : ℚ
  totalHeight : ℚ
deriving DecidableEq, Repr

/-- One exported building/floor entry of `calculateSiteCoordinates`
(BuildingScene.tsx L163-175). -/
structure ExportBuilding where
  id : ℕ
  height : ℚ
  isFloor : Bool
  floorLevel : ℤ
  baseBuilding : Option ℕ
  corners : List Corner
  zPosition : ZPosition
deriving DecidableEq, Repr

/-- The `V` base-corner records of one floor: original vertex index,
grid-rounded centered coordinates, z at the floor's base
(BuildingScene.tsx L133-145). -/
def baseCornersOf (center : Pt) (cellSize : ℚ) (z : ℚ) (verts : List Pt) :
    List Corner :=
  verts.mapIdx (fun i v =>
    { index := i, position := "base",
      x := jsRound ((v.1 - center.1) / cellSize),
      y := jsRound ((v.2 - center.2) / cellSize), z := z })

/-- The `V` top-corner records of one floor (BuildingScene.tsx L147-159). -/
def topCornersOf (center : Pt) (cellSize : ℚ) (z : ℚ) (verts : List Pt) :
    List Corner :=
  verts.mapIdx (fun i v =>
    { index := i, position := "top",
      x := jsRound ((v.1 - center.1) / cellSize),
      y := jsRound ((v.2 - center.2) / cellSize), z := z })

/-- The record built for one floor of a group at cumulative height `cum`
(BuildingScene.tsx L126-175).  `id := building.originalIndex || parseInt(baseIndex)`
falls back to the group key when the original index is 0, because 0 is
falsy in JavaScript. -/
def floorRecord (center : Pt) (cellSize : ℚ) (baseKey : ℕ) (cum : ℚ)
    (oi : ℕ) (b : PolygonData) : ExportBuilding :=
  { id := if oi = 0 then baseKey else oi
    height := b.height
    isFloor := b.floorLevel.isSome
    floorLevel := b.floorLevel.getD 0
    baseBuilding := b.baseBuilding
    corners := baseCornersOf center cellSize cum b.vertices
      ++ topCornersOf center cellSize (cum + b.height) b.vertices
    zPosition := { base := cum, top := cum + b.height,
                   totalHeight := cum + b.height } }

/-- The fold over one sorted group with the running cumulative height
(BuildingScene.tsx L124-131: `cumulativeHeight` starts at 0 and grows by
each member's height). -/
def buildFloors (center : Pt) (cellSize : ℚ) (baseKey : ℕ) :
    ℚ → List (ℕ × PolygonData) → List ExportBuilding
  | _, [] => []
  | cum, (oi, b) :: rest =>
    floorRecord center cellSize baseKey cum oi b
      :: buildFloors center cellSize baseKey (cum + b.height) rest

/-- The group key of an indexed building: `building.baseBuilding ?? index`
(BuildingScene.tsx L112). -/
def entryKey (p : ℕ × PolygonData) : ℕ := p.2.baseBuilding.getD p.1

/-- The indexed buildings that take part in the export: not the main
boundary, and with every vertex inside the main polygon
(BuildingScene.tsx L102-118). -/
def exportEntries (bl : List PolygonData) (mainVerts : List Pt) :
    List (ℕ × PolygonData) :=
  bl.enum.filter (fun p =>
    (!p.2.isMain) && p.2.vertices.all (fun v => isPointInPolygon v mainVerts))

/-- The distinct group keys in ascending order, as `Object.entries`
enumerates integer-like keys of a JS object (BuildingScene.tsx L120). -/
def exportKeys (entries : List (ℕ × PolygonData)) : List ℕ :=
  ((entries.map entryKey).dedup).mergeSort (fun a b => decide (a ≤ b))

/-- One group sorted by floor level, `(a.floorLevel || 0) - (b.floorLevel || 0)`
ascending with JS `Array.prototype.sort` (stable) — BuildingScene.tsx L122. -/
def sortGroup (g : List (ℕ × PolygonData)) : List (ℕ × PolygonData) :=
  g.mergeSort (fun a b =>
    decide (a.2.floorLevel.getD 0 ≤ b.2.floorLevel.getD 0))

/-- The `buildings` part of `calculateSiteCoordinates`
(BuildingScene.tsx L55-203): `none` models the alert-and-return paths
(empty list, or no main building); the site/metadata parts and the React
state writes are not modelled.  `gridSize = 2000`, `gridDivisions = 1000`,
so `cellSize = 2`. -/
def calculateSiteCoordinates (bl : List PolygonData)
    (roads : List (List Pt)) : Option (List ExportBuilding) :=
  if bl.isEmpty then none
  else
    match bl.find? (fun b => b.isMain) with
    | none => none
    | some mainB =>
      let center := computeSceneCenter bl roads
      let cellSize : ℚ := 2000 / 1000
      let entries := exportEntries bl mainB.vertices
      some ((exportKeys entries).flatMap (fun k =>
        buildFloors center cellSize k 0
          (sortGroup (entries.filter (fun p => entryKey p = k)))))

/-- A default corner, standing for the out-of-range `undefined` that the
JS `array[i]` accesses can produce (never hit under the theorems'
hypotheses). -/
def dfltCorner : Corner :=
  { index := 0, position := "", x := 0, y := 0, z := 0 }

/-- The wall surfaces of one exported zone (`exportBuildingCoordinates`,
BuildingScene.tsx L478-532): base/top corner lists are recovered by
filtering on `position`, and wall `i` is
`[base(i), base(i+1 mod V), top(i+1 mod V), top(i)]`.  The `toFixed`
string formatting of the coordinates is not modelled; each wall is kept
as its list of corner records. -/
def wallsOf (eb : ExportBuilding) : List (List Corner) :=
  let baseVertices := eb.corners.filter (fun c => c.position == "base")
  let topVertices := eb.corners.filter (fun c => c.position == "top")
  (List.range baseVertices.length).map (fun i =>
    let nextIndex := (i + 1) % baseVertices.length
    [baseVertices.getD i dfltCorner,
     baseVertices.getD nextIndex dfltCorner,
     topVertices.getD nextIndex dfltCorner,
     topVertices.getD i dfltCorner])

theorem buildFloors_getElem (c : Pt) (cs : ℚ) (k : ℕ) :
    ∀ (g : List (ℕ × PolygonData)) (cum : ℚ) (j : ℕ),
      (buildFloors c cs k cum g)[j]?
        = (g[j]?).map (fun p =>
            floorRecord c cs k
              (cum + ((g.take j).map (fun q => q.2.height)).sum) p.1 p.2) := by
  intro g
  induction g with
  | nil => intro cum j; simp [buildFloors]
  | cons hd tl ih =>
    intro cum j
    obtain ⟨oi, b⟩ := hd
    cases j with
    | zero => simp [buildFloors]
    | succ j =>
      have harg : cum + b.height + ((tl.take j).map (fun q => q.2.height)).sum
          = cum + ((((oi, b) :: tl).take (j+1)).map (fun q => q.2.height)).sum := by
        simp [List.take_succ_cons]
        ring
      simp only [buildFloors, List.getElem?_cons_succ, ih (cum + b.height) j,
        List.take_succ_cons, List.map_cons, List.sum_cons]
      cases tl[j]? <;> simp <;> ring_nf

theorem buildFloors_map_height (c : Pt) (cs : ℚ) (k : ℕ) :
    ∀ (g : List (ℕ × PolygonData)) (cum : ℚ),
      (buildFloors c cs k cum g).map (fun eb => eb.height)
        = g.map (fun p => p.2.height) := by
  intro g
  induction g with
  | nil => intro cum; simp [buildFloors]
  | cons hd tl ih =>
    intro cum
    obtain ⟨oi, b⟩ := hd
    simp [buildFloors, floorRecord, ih]

theorem buildFloors_map_floorLevel (c : Pt) (cs : ℚ) (k : ℕ) :
    ∀ (g : List (ℕ × PolygonData)) (cum : ℚ),
      (buildFloors c cs k cum g).map (fun eb => eb.floorLevel)
        = g.map (fun p => p.2.floorLevel.getD 0) := by
  intro g
  induction g with
  | nil => intro cum; simp [buildFloors]
  | cons hd tl ih =>
    intro cum
    obtain ⟨oi, b⟩ := hd
    simp [buildFloors, floorRecord, ih]

theorem sortGroup_sorted (g : List (ℕ × PolygonData)) :
    List.Sorted (fun a b => a ≤ b)
      ((sortGroup g).map (fun p => p.2.floorLevel.getD 0)) := by
  rw [List.Sorted, List.pairwise_map]
  have h := @List.sorted_mergeSort (ℕ × PolygonData)
    (fun a b =>
      decide (a.2.floorLevel.getD 0 ≤ b.2.floorLevel.getD 0))
    (fun a b c hab hbc => by
      simp only [decide_eq_true_eq] at hab hbc ⊢
      exact le_trans hab hbc)
    (fun a b => by
      simp only [Bool.or_eq_true, decide_eq_true_eq]
      exact le_total _ _)
    g
  refine h.imp ?_
  intro a b hab
  simpa using hab

theorem filter_base_corners (c : Pt) (cs zb zt : ℚ) (verts : List Pt) :
    (baseCornersOf c cs zb verts ++ topCornersOf c cs zt verts).filter
        (fun x => x.position == "base")
      = baseCornersOf c cs zb verts := by
  rw [List.filter_append]
  have h1 : (baseCornersOf c cs zb verts).filter (fun x => x.position == "base")
      = baseCornersOf c cs zb verts := by
    apply List.filter_eq_self.mpr
    intro a ha
    simp only [baseCornersOf, List.mapIdx_eq_enum_map, List.mem_map] at ha
    obtain ⟨p, _, hp⟩ := ha
    rw [← hp]
    rfl
  have h2 : (topCornersOf c cs zt verts).filter (fun x => x.position == "base")
      = [] := by
    rw [List.filter_eq_nil_iff]
    intro a ha
    simp only [topCornersOf, List.mapIdx_eq_enum_map, List.mem_map] at ha
    obtain ⟨⟨i, v⟩, _, hp⟩ := ha
    rw [← hp]
    simp [Function.uncurry]
  rw [h1, h2, List.append_nil]

theorem filter_top_corners (c : Pt) (cs zb zt : ℚ) (verts : List Pt) :
    (baseCornersOf c cs zb verts ++ topCornersOf c cs zt verts).filter
        (fun x => x.position == "top")
      = topCornersOf c cs zt verts := by
  rw [List.filter_append]
  have h1 : (baseCornersOf c cs zb verts).filter (fun x => x.position == "top")
      = [] := by
    rw [List.filter_eq_nil_iff]
    intro a ha
    simp only [baseCornersOf, List.mapIdx_eq_enum_map, List.mem_map] at ha
    obtain ⟨⟨i, v⟩, _, hp⟩ := ha
    rw [← hp]
    simp [Function.uncurry]
  have h2 : (topCornersOf c cs zt verts).filter (fun x => x.position == "top")
      = topCornersOf c cs zt verts := by
    apply List.filter_eq_self.mpr
    intro a ha
    simp only [topCornersOf, List.mapIdx_eq_enum_map, List.mem_map] at ha
    obtain ⟨p, _, hp⟩ := ha
    rw [← hp]
    rfl
  rw [h1, h2, List.nil_append]

/-- Claim C8: in the grid-coordinates export, each base building's floor
group is sorted by `floorLevel` ascending and the z-spans are the running
sum of the member heights (floor `j` spans
`[sum of heights before j, that + height j]`); each floor emits `V` base
corner records at its current z and `V` top corner records at its next z
(see `baseCornersOf` / `topCornersOf` for the index and grid fields); and
each zone's wall `i` consists of exactly the four corners
`[base(i), base(i+1 mod V), top(i+1 mod V), top(i)]` in that order. -/
theorem c8_export_serializer :
    ∀ (bl : List PolygonData) (roads : List (List Pt)) (out : List ExportBuilding),
      calculateSiteCoordinates bl roads = some out →
      (∃ mainB, bl.find? (fun b => b.isMain) = some mainB
        ∧ out = (exportKeys (exportEntries bl mainB.vertices)).flatMap (fun k =>
            buildFloors (computeSceneCenter bl roads) (2000/1000) k 0
              (sortGroup ((exportEntries bl mainB.vertices).filter
                (fun p => entryKey p = k)))))
      ∧ (∀ (c : Pt) (cs : ℚ) (k : ℕ) (g : List (ℕ × PolygonData)),
          List.Sorted (fun a b => a ≤ b)
            ((buildFloors c cs k 0 (sortGroup g)).map (fun eb => eb.floorLevel))
          ∧ (∀ (j : ℕ) (fj : ExportBuilding),
              (buildFloors c cs k 0 (sortGroup g))[j]? = some fj →
              fj.zPosition.base
                  = (((buildFloors c cs k 0 (sortGroup g)).take j).map
                      (fun eb => eb.height)).sum
                ∧ fj.zPosition.top = fj.zPosition.base + fj.height
                ∧ fj.zPosition.totalHeight = fj.zPosition.top)
          ∧ (∀ (j : ℕ) (fj : ExportBuilding),
              (buildFloors c cs k 0 (sortGroup g))[j]? = some fj →
              ∃ p : ℕ × PolygonData, (sortGroup g)[j]? = some p
                ∧ fj.corners
                    = baseCornersOf c cs fj.zPosition.base p.2.vertices
                      ++ topCornersOf c cs fj.zPosition.top p.2.vertices
                ∧ (baseCornersOf c cs fj.zPosition.base p.2.vertices).length
                    = p.2.vertices.length
                ∧ (topCornersOf c cs fj.zPosition.top p.2.vertices).length
                    = p.2.vertices.length
                ∧ fj.corners.filter (fun x => x.position == "base")
                    = baseCornersOf c cs fj.zPosition.base p.2.vertices
                ∧ fj.corners.filter (fun x => x.position == "top")
                    = topCornersOf c cs fj.zPosition.top p.2.vertices))
      ∧ (∀ (eb : ExportBuilding) (i : ℕ) (bvi bvn tvi tvn : Corner),
          (eb.corners.filter (fun x => x.position == "base"))[i]? = some bvi →
          (eb.corners.filter (fun x => x.position == "base"))[
              (i+1) % (eb.corners.filter (fun x => x.position == "base")).length]?
            = some bvn →
          (eb.corners.filter (fun x => x.position == "top"))[i]? = some tvi →
          (eb.corners.filter (fun x => x.position == "top"))[
              (i+1) % (eb.corners.filter (fun x => x.position == "base")).length]?
            = some tvn →
          (wallsOf eb).length
              = (eb.corners.filter (fun x => x.position == "base")).length
          ∧ (wallsOf eb)[i]? = some [bvi, bvn, tvn, tvi]) := by
  intro bl roads out h
  refine ⟨?_, ?_, ?_⟩
  · unfold calculateSiteCoordinates at h
    cases he : bl.isEmpty with
    | true => rw [he] at h; simp at h
    | false =>
      rw [he] at h
      simp only [Bool.false_eq_true, if_false] at h
      cases hfind : bl.find? (fun b => b.isMain) with
      | none => rw [hfind] at h; simp at h
      | some mainB =>
        rw [hfind] at h
        simp only [Option.some.injEq] at h
        exact ⟨mainB, rfl, h.symm⟩
  · intro c cs k g
    refine ⟨?_, ?_, ?_⟩
    · rw [buildFloors_map_floorLevel]
      exact sortGroup_sorted g
    · intro j fj hj
      rw [buildFloors_getElem] at hj
      cases hg : (sortGroup g)[j]? with
      | none => rw [hg] at hj; simp at hj
      | some p =>
        rw [hg] at hj
        simp only [Option.map_some', Option.some.injEq] at hj
        subst hj
        refine ⟨?_, rfl, rfl⟩
        show 0 + ((((sortGroup g).take j).map (fun q => q.2.height)).sum) = _
        rw [zero_add, List.map_take, List.map_take, buildFloors_map_height]
    · intro j fj hj
      rw [buildFloors_getElem] at hj
      cases hg : (sortGroup g)[j]? with
      | none => rw [hg] at hj; simp at hj
      | some p =>
        rw [hg] at hj
        simp only [Option.map_some', Option.some.injEq] at hj
        subst hj
        refine ⟨p, rfl, rfl, ?_, ?_, ?_, ?_⟩
        · simp [baseCornersOf, List.mapIdx_eq_enum_map]
        · simp [topCornersOf, List.mapIdx_eq_enum_map]
        · exact filter_base_corners _ _ _ _ _
        · exact filter_top_corners _ _ _ _ _
  · intro eb i bvi bvn tvi tvn h1 h2 h3 h4
    have hi : i < (eb.corners.filter (fun x => x.position == "base")).length :=
      (List.getElem?_eq_some.mp h1).1
    constructor
    · simp [wallsOf]
    · simp only [wallsOf]
      rw [List.getElem?_map, List.getElem?_range hi]
      simp only [Option.map_some', Option.some.injEq]
      rw [List.getD_eq_getElem?_getD, h1,
        List.getD_eq_getElem?_getD, h2,
        List.getD_eq_getElem?_getD, h4,
        List.getD_eq_getElem?_getD, h3]
      rfl

/-- The single exported entry for `sampleScene` (center (4,4), cell size 2,
`sampleBase` at index 1 with height 5). -/
def exportW : ExportBuilding :=
  { id := 1, height := 5, isFloor := false, floorLevel := 0,
    baseBuilding := none,
    corners :=
      [{ index := 0, position := "base", x := -1, y := -1, z := 0 },
       { index := 1, position := "base", x := 0, y := -1, z := 0 },
       { index := 2, position := "base", x := 0, y := 0, z := 0 },
       { index := 3, position := "base", x := -1, y := 0, z := 0 },
       { index := 0, position := "top", x := -1, y := -1, z := 5 },
       { index := 1, position := "top", x := 0, y := -1, z := 5 },
       { index := 2, position := "top", x := 0, y := 0, z := 5 },
       { index := 3, position := "top", x := -1, y := 0, z := 5 }],
    zPosition := { base := 0, top := 5, totalHeight := 5 } }

/-- Witness for `c8_export_serializer` on the concrete `sampleScene`:
the export is the single zone `exportW`, and its wall 0 is
`[base 0, base 1, top 1, top 0]`. -/
theorem c8_export_serializer_witness :
    calculateSiteCoordinates sampleScene.buildingList [] = some [exportW]
    ∧ (wallsOf exportW).length = 4
    ∧ (wallsOf exportW)[0]?
      = some [{ index := 0, position := "base", x := -1, y := -1, z := 0 },
              { index := 1, position := "base", x := 0, y := -1, z := 0 },
              { index := 1, position := "top", x := 0, y := -1, z := 5 },
              { index := 0, position := "top", x := -1, y := -1, z := 5 }] := by
  have hcalc : calculateSiteCoordinates sampleScene.buildingList [] = some [exportW] := by
    norm_num [calculateSiteCoordinates, sampleScene, sampleMain, sampleBase,
      computeSceneCenter, exportEntries, exportKeys, entryKey, sortGroup,
      buildFloors, floorRecord, baseCornersOf, topCornersOf, isPointInPolygon,
      pipCond, jsRound, List.range_succ, List.enum, exportW]
  obtain ⟨hdecomp, hgroups, hwalls⟩ :=
    c8_export_serializer sampleScene.buildingList [] [exportW] hcalc
  have hw := hwalls exportW 0
    { index := 0, position := "base", x := -1, y := -1, z := 0 }
    { index := 1, position := "base", x := 0, y := -1, z := 0 }
    { index := 0, position := "top", x := -1, y := -1, z := 5 }
    { index := 1, position := "top", x := 0, y := -1, z := 5 }
    rfl rfl rfl rfl
  exact ⟨hcalc, hw.1, hw.2⟩

/-! Infrastructure for the `isPointInPolygon` claims: a cyclic vertex
accessor, the reformulation of the even-odd fold as a crossing count, and
modular-index bookkeeping. -/

/-- Cyclic vertex accessor: vertex `i mod n` of the polygon. -/
def vget (poly : List Pt) (i : ℕ) : Pt := poly.getD (i % poly.length) (0,0)

theorem vget_mod (poly : List Pt) (a : ℕ) :
    vget poly (a % poly.length) = vget poly a := by
  simp [vget, Nat.mod_mod_of_dvd]

theorem vget_mod_add (poly : List Pt) (a b : ℕ) :
    vget poly (a % poly.length + b) = vget poly (a + b) := by
  simp [vget, Nat.mod_add_mod]

theorem vget_add_length (poly : List Pt) (a : ℕ) :
    vget poly (a + poly.length) = vget poly a := by
  simp [vget, Nat.add_mod_right]

theorem vget_mem (poly : List Pt) (a : ℕ) (hne : poly ≠ []) :
    vget poly a ∈ poly := by
  have hlen : 0 < poly.length := List.length_pos.mpr hne
  have hlt : a % poly.length < poly.length := Nat.mod_lt _ hlen
  rw [vget, List.getD_eq_getElem poly _ hlt]
  exact List.getElem_mem hlt

theorem mod_succ_pred (n i : ℕ) (hn : 0 < n) (hi : i < n) :
    ((i + n - 1) % n + 1) % n = i := by
  rcases Nat.eq_zero_or_pos i with h0 | hpos
  · subst h0
    rw [Nat.zero_add]
    rw [Nat.mod_eq_of_lt (show n - 1 < n by omega)]
    rw [show n - 1 + 1 = n by omega, Nat.mod_self]
  · rw [show i + n - 1 = (i - 1) + n by omega, Nat.add_mod_right]
    rw [Nat.mod_eq_of_lt (show i - 1 < n by omega)]
    rw [show i - 1 + 1 = i by omega, Nat.mod_eq_of_lt hi]

theorem mod_pred_succ (n j : ℕ) (hn : 0 < n) (hj : j < n) :
    ((j + 1) % n + n - 1) % n = j := by
  rcases Nat.lt_or_ge (j + 1) n with hlt | hge
  · rw [Nat.mod_eq_of_lt hlt, show j + 1 + n - 1 = j + n by omega,
      Nat.add_mod_right, Nat.mod_eq_of_lt hj]
  · have hj1 : j + 1 = n := by omega
    rw [hj1, Nat.mod_self, Nat.zero_add, Nat.mod_eq_of_lt (by omega)]
    omega

theorem foldl_toggle {α : Type} (f : α → Bool) :
    ∀ (l : List α) (acc : Bool),
      l.foldl (fun ins a => if f a then !ins else ins) acc
        = (acc != decide (Odd (l.countP f))) := by
  intro l
  induction l with
  | nil => intro acc; cases acc <;> simp
  | cons a l ih =>
    intro acc
    rw [List.foldl_cons, ih, List.countP_cons]
    cases hf : f a
    · simp
    · simp only [if_pos rfl, if_true, reduceIte, Nat.odd_add_one]
      by_cases ho : Odd (l.countP f) <;> cases acc <;> simp [ho]

theorem countP_range_eq_card (n : ℕ) (q : ℕ → Bool) :
    (List.range n).countP q = ((Finset.range n).filter (fun i => q i)).card := by
  induction n with
  | zero => simp
  | succ n ih =>
    rw [List.range_succ, List.countP_append, Finset.range_succ,
      Finset.filter_insert]
    cases hq : q n
    · simp [ih, hq]
    · simp only [hq, reduceIte]
      rw [Finset.card_insert_of_not_mem (by simp)]
      simp [ih, hq]

/-- Whether vertex `i` lies strictly above the horizontal line through the
query point (`yi > y` in the code). -/
def bAbove (poly : List Pt) (y : ℚ) (i : ℕ) : Bool :=
  decide (y < (vget poly i).2)

/-- The ray-cast test for the directed cyclic edge from vertex `j` to
vertex `j+1` (the loop body at the iteration whose current vertex is
`j+1`). -/
def edgeCond (p : Pt) (poly : List Pt) (j : ℕ) : Bool :=
  pipCond p.1 p.2 (vget poly j) (vget poly (j + 1))

/-- Number of edges whose ray-cast test fires. -/
def edgeCount (p : Pt) (poly : List Pt) : ℕ :=
  ((Finset.range poly.length).filter (fun j => edgeCond p poly j = true)).card

theorem isPointInPolygon_eq_parity (p : Pt) (poly : List Pt) :
    isPointInPolygon p poly = decide (Odd (edgeCount p poly)) := by
  rw [isPointInPolygon, foldl_toggle, Bool.false_bne]
  congr 1
  rw [show (List.range poly.length).countP
        (fun i => pipCond p.1 p.2
          (poly.getD ((i + poly.length - 1) % poly.length) (0,0))
          (poly.getD i (0,0)))
      = (List.range poly.length).countP
        (fun i => edgeCond p poly ((i + poly.length - 1) % poly.length)) from ?_,
    countP_range_eq_card, edgeCount]
  · congr 1
    apply Finset.card_bij'
      (fun a _ => (a + poly.length - 1) % poly.length)
      (fun b _ => (b + 1) % poly.length)
    · intro a ha
      simp only [Finset.mem_filter, Finset.mem_range] at ha ⊢
      exact ⟨Nat.mod_lt _ (by omega), ha.2⟩
    · intro b hb
      simp only [Finset.mem_filter, Finset.mem_range] at hb ⊢
      refine ⟨Nat.mod_lt _ (by omega), ?_⟩
      rw [mod_pred_succ _ _ (by omega) hb.1]
      exact hb.2
    · intro a ha
      simp only [Finset.mem_filter, Finset.mem_range] at ha
      exact mod_succ_pred _ _ (by omega) ha.1
    · intro b hb
      simp only [Finset.mem_filter, Finset.mem_range] at hb
      exact mod_pred_succ _ _ (by omega) hb.1
  · apply List.countP_congr
    intro i hi
    have hilt : i < poly.length := by
      simpa using List.mem_range.mp hi
    have hn : 0 < poly.length := by omega
    have h1 : poly.getD ((i + poly.length - 1) % poly.length) (0,0)
        = vget poly ((i + poly.length - 1) % poly.length) := by
      rw [vget, Nat.mod_mod_of_dvd _ dvd_rfl]
    have h2 : poly.getD i (0,0)
        = vget poly ((i + poly.length - 1) % poly.length + 1) := by
      rw [vget_mod_add, show i + poly.length - 1 + 1 = i + poly.length by omega,
        vget_add_length, vget, Nat.mod_eq_of_lt hilt]
    rw [edgeCond, h1, h2]

theorem cond2_iff_cross (x y : ℚ) (A B : Pt) (hD : B.2 - A.2 ≠ 0) :
    (x < (B.1 - A.1) * (y - A.2) / (B.2 - A.2) + A.1
      ↔ 0 < cross (A - B) ((x, y) - B) * (A.2 - B.2)) := by
  have hId : cross (A - B) ((x, y) - B)
      = (x - A.1) * (B.2 - A.2) - (B.1 - A.1) * (y - A.2) := by
    simp only [cross, Prod.fst_sub, Prod.snd_sub]
    ring
  rw [← sub_lt_iff_lt_add]
  rcases lt_or_gt_of_ne hD with hneg | hpos
  · rw [lt_div_iff_of_neg hneg]
    constructor <;> intro hlt <;> nlinarith [hId]
  · rw [lt_div_iff hpos]
    constructor <;> intro hlt <;> nlinarith [hId]

theorem edgeCond_of_not_straddle (p : Pt) (poly : List Pt) (j : ℕ)
    (h : bAbove poly p.2 j = bAbove poly p.2 (j + 1)) :
    edgeCond p poly j = false := by
  rw [edgeCond, pipCond]
  have : (decide (p.2 < (vget poly (j+1)).2) != decide (p.2 < (vget poly j).2))
      = false := by
    rw [bAbove, bAbove] at h
    rw [h]
    simp
  rw [this, Bool.false_and]

theorem edgeCond_iff_of_straddle (p : Pt) (poly : List Pt) (j : ℕ)
    (h : bAbove poly p.2 j ≠ bAbove poly p.2 (j + 1)) :
    (edgeCond p poly j = true
      ↔ 0 < cross (vget poly (j+1) - vget poly j) (p - vget poly j)
            * ((vget poly (j+1)).2 - (vget poly j).2)) := by
  have hD : (vget poly j).2 - (vget poly (j+1)).2 ≠ 0 := by
    intro he
    apply h
    rw [bAbove, bAbove, show (vget poly j).2 = (vget poly (j+1)).2 by linarith]
  have hfirst : (decide (p.2 < (vget poly (j+1)).2)
      != decide (p.2 < (vget poly j).2)) = true := by
    rw [bAbove, bAbove] at h
    rw [bne_iff_ne]
    exact fun he => h (he.symm)
  rw [edgeCond, pipCond, hfirst, Bool.true_and, decide_eq_true_iff]
  have := cond2_iff_cross p.1 p.2 (vget poly (j+1)) (vget poly j) hD
  rw [Prod.mk.eta] at this
  exact this

theorem cross_edge_decomp (x y : ℚ) (A B : Pt) :
    cross (A - B) ((x,y) - B)
      = (y - B.2) * (A.1 - x) + (A.2 - y) * (B.1 - x) := by
  simp only [cross, Prod.fst_sub, Prod.snd_sub]
  ring

theorem edgeCond_true_straddle (p : Pt) (poly : List Pt) (j : ℕ)
    (h : edgeCond p poly j = true) :
    bAbove poly p.2 j ≠ bAbove poly p.2 (j + 1) := by
  intro heq
  rw [edgeCond_of_not_straddle _ _ _ heq] at h
  cases h

theorem even_straddle_card (poly : List Pt) (y : ℚ) :
    Even (((Finset.range poly.length).filter
      (fun j => bAbove poly y j ≠ bAbove poly y (j + 1))).card) := by
  set n := poly.length with hn
  rcases Nat.eq_zero_or_pos n with h0 | hpos
  · rw [h0]
    simp
  · set c : ℕ → ZMod 2 := fun i => if bAbove poly y i then 1 else 0 with hc
    have hcmod : ∀ a, c ((a + 1) % n) = c (a + 1) := by
      intro a
      simp only [hc, bAbove, hn, vget_mod]
    have key : (((Finset.range n).filter
        (fun j => bAbove poly y j ≠ bAbove poly y (j + 1))).card : ZMod 2)
        = ∑ j ∈ Finset.range n, (c j + c (j + 1)) := by
      rw [Finset.card_filter, Nat.cast_sum]
      apply Finset.sum_congr rfl
      intro j _
      cases hbj : bAbove poly y j <;> cases hbj1 : bAbove poly y (j+1) <;>
        simp [hc, hbj, hbj1] <;> decide
    have hshift : ∑ j ∈ Finset.range n, c (j + 1)
        = ∑ j ∈ Finset.range n, c j := by
      apply Finset.sum_bij' (fun a _ => (a + 1) % n) (fun b _ => (b + n - 1) % n)
      · intro a ha
        simp only [Finset.mem_range] at ha ⊢
        exact Nat.mod_lt _ hpos
      · intro b hb
        simp only [Finset.mem_range] at hb ⊢
        exact Nat.mod_lt _ hpos
      · intro a ha
        simp only [Finset.mem_range] at ha
        exact mod_pred_succ _ _ hpos ha
      · intro b hb
        simp only [Finset.mem_range] at hb
        exact mod_succ_pred _ _ hpos hb
      · intro a _
        exact (hcmod a).symm
    have hzero : (((Finset.range n).filter
        (fun j => bAbove poly y j ≠ bAbove poly y (j + 1))).card : ZMod 2) = 0 := by
      rw [key, Finset.sum_add_distrib, hshift, ← two_mul]
      rw [show (2 : ZMod 2) = 0 by decide, zero_mul]
    exact even_iff_two_dvd.mpr ((ZMod.natCast_zmod_eq_zero_iff_dvd _ 2).mp hzero)

theorem pip_outside_bbox (p : Pt) (poly : List Pt)
    (h : (∀ v ∈ poly, p.1 < v.1) ∨ (∀ v ∈ poly, v.1 < p.1)
       ∨ (∀ v ∈ poly, p.2 < v.2) ∨ (∀ v ∈ poly, v.2 < p.2)) :
    isPointInPolygon p poly = false := by
  rw [isPointInPolygon_eq_parity, decide_eq_false_iff_not]
  rcases h with hx | hx | hy | hy
  · -- every vertex is strictly to the right: crossing tests reduce to
    -- straddle tests, and the number of straddling edges is even
    have hcongr : (Finset.range poly.length).filter
          (fun j => edgeCond p poly j = true)
        = (Finset.range poly.length).filter
          (fun j => bAbove poly p.2 j ≠ bAbove poly p.2 (j + 1)) := by
      apply Finset.filter_congr
      intro j hj
      simp only [Finset.mem_range] at hj
      have hnonempty : poly ≠ [] := by
        intro he
        rw [he] at hj
        simp at hj
      constructor
      · exact fun hc => edgeCond_true_straddle p poly j hc
      · intro hst
        rw [edgeCond_iff_of_straddle p poly j hst]
        have hxA := hx _ (vget_mem poly (j+1) hnonempty)
        have hxB := hx _ (vget_mem poly j hnonempty)
        have hdec := cross_edge_decomp p.1 p.2 (vget poly (j+1)) (vget poly j)
        rw [Prod.mk.eta] at hdec
        cases hbj : bAbove poly p.2 j with
        | false =>
          have hbj1 : bAbove poly p.2 (j+1) = true := by
            cases hb1 : bAbove poly p.2 (j+1)
            · exact absurd (hbj.trans hb1.symm) hst
            · rfl
          rw [bAbove, decide_eq_false_iff_not, not_lt] at hbj
          rw [bAbove, decide_eq_true_iff] at hbj1
          have hCj : 0 < cross (vget poly (j + 1) - vget poly j)
              (p - vget poly j) := by
            nlinarith [hdec,
              mul_nonneg (show (0:ℚ) ≤ p.2 - (vget poly j).2 by linarith)
                (show (0:ℚ) ≤ (vget poly (j+1)).1 - p.1 by linarith),
              mul_pos (show (0:ℚ) < (vget poly (j+1)).2 - p.2 by linarith)
                (show (0:ℚ) < (vget poly j).1 - p.1 by linarith)]
          exact mul_pos hCj (by linarith)
        | true =>
          have hbj1 : bAbove poly p.2 (j+1) = false := by
            cases hb1 : bAbove poly p.2 (j+1)
            · rfl
            · exact absurd (hbj.trans hb1.symm) hst
          rw [bAbove, decide_eq_true_iff] at hbj
          rw [bAbove, decide_eq_false_iff_not, not_lt] at hbj1
          have hCj : cross (vget poly (j + 1) - vget poly j)
              (p - vget poly j) < 0 := by
            nlinarith [hdec,
              mul_pos (show (0:ℚ) < (vget poly j).2 - p.2 by linarith)
                (show (0:ℚ) < (vget poly (j+1)).1 - p.1 by linarith),
              mul_nonneg (show (0:ℚ) ≤ p.2 - (vget poly (j+1)).2 by linarith)
                (show (0:ℚ) ≤ (vget poly j).1 - p.1 by linarith)]
          exact mul_pos_of_neg_of_neg hCj (by linarith)
    rw [edgeCount, hcongr]
    exact Nat.even_iff_not_odd.mp (even_straddle_card poly p.2)
  · -- every vertex is strictly to the left: no crossing test fires
    have hempty : (Finset.range poly.length).filter
        (fun j => edgeCond p poly j = true) = ∅ := by
      apply Finset.filter_false_of_mem
      intro j hj hcond
      simp only [Finset.mem_range] at hj
      have hnonempty : poly ≠ [] := by
        intro he
        rw [he] at hj
        simp at hj
      have hst := edgeCond_true_straddle _ _ _ hcond
      rw [edgeCond_iff_of_straddle p poly j hst] at hcond
      have hxA := hx _ (vget_mem poly (j+1) hnonempty)
      have hxB := hx _ (vget_mem poly j hnonempty)
      have hdec := cross_edge_decomp p.1 p.2 (vget poly (j+1)) (vget poly j)
      rw [Prod.mk.eta] at hdec
      cases hbj : bAbove poly p.2 j with
      | false =>
        have hbj1 : bAbove poly p.2 (j+1) = true := by
          cases hb1 : bAbove poly p.2 (j+1)
          · exact absurd (hbj.trans hb1.symm) hst
          · rfl
        rw [bAbove, decide_eq_false_iff_not, not_lt] at hbj
        rw [bAbove, decide_eq_true_iff] at hbj1
        have hCj : cross (vget poly (j + 1) - vget poly j)
            (p - vget poly j) < 0 := by
          nlinarith [hdec,
            mul_nonneg (show (0:ℚ) ≤ p.2 - (vget poly j).2 by linarith)
              (show (0:ℚ) ≤ p.1 - (vget poly (j+1)).1 by linarith),
            mul_pos (show (0:ℚ) < (vget poly (j+1)).2 - p.2 by linarith)
              (show (0:ℚ) < p.1 - (vget poly j).1 by linarith)]
        have : cross (vget poly (j + 1) - vget poly j) (p - vget poly j)
            * ((vget poly (j+1)).2 - (vget poly j).2) < 0 :=
          mul_neg_of_neg_of_pos hCj (by linarith)
        linarith
      | true =>
        have hbj1 : bAbove poly p.2 (j+1) = false := by
          cases hb1 : bAbove poly p.2 (j+1)
          · rfl
          · exact absurd (hbj.trans hb1.symm) hst
        rw [bAbove, decide_eq_true_iff] at hbj
        rw [bAbove, decide_eq_false_iff_not, not_lt] at hbj1
        have hCj : 0 < cross (vget poly (j + 1) - vget poly j)
            (p - vget poly j) := by
          nlinarith [hdec,
            mul_pos (show (0:ℚ) < (vget poly j).2 - p.2 by linarith)
              (show (0:ℚ) < p.1 - (vget poly (j+1)).1 by linarith),
            mul_nonneg (show (0:ℚ) ≤ p.2 - (vget poly (j+1)).2 by linarith)
              (show (0:ℚ) ≤ p.1 - (vget poly j).1 by linarith)]
        have : cross (vget poly (j + 1) - vget poly j) (p - vget poly j)
            * ((vget poly (j+1)).2 - (vget poly j).2) < 0 :=
          mul_neg_of_pos_of_neg hCj (by linarith)
        linarith
    rw [edgeCount, hempty]
    simp
  · -- the point is strictly below every vertex: nothing straddles
    have hempty : (Finset.range poly.length).filter
        (fun j => edgeCond p poly j = true) = ∅ := by
      apply Finset.filter_false_of_mem
      intro j hj hcond
      simp only [Finset.mem_range] at hj
      have hnonempty : poly ≠ [] := by
        intro he
        rw [he] at hj
        simp at hj
      apply edgeCond_true_straddle _ _ _ hcond
      rw [bAbove, bAbove,
        decide_eq_true (hy _ (vget_mem poly j hnonempty)),
        decide_eq_true (hy _ (vget_mem poly (j+1) hnonempty))]
    rw [edgeCount, hempty]
    simp
  · -- the point is strictly above every vertex: nothing straddles
    have hempty : (Finset.range poly.length).filter
        (fun j => edgeCond p poly j = true) = ∅ := by
      apply Finset.filter_false_of_mem
      intro j hj hcond
      simp only [Finset.mem_range] at hj
      have hnonempty : poly ≠ [] := by
        intro he
        rw [he] at hj
        simp at hj
      apply edgeCond_true_straddle _ _ _ hcond
      have h1 : bAbove poly p.2 j = false := by
        rw [bAbove, decide_eq_false_iff_not, not_lt]
        exact le_of_lt (hy _ (vget_mem poly j hnonempty))
      have h2 : bAbove poly p.2 (j+1) = false := by
        rw [bAbove, decide_eq_false_iff_not, not_lt]
        exact le_of_lt (hy _ (vget_mem poly (j+1) hnonempty))
      rw [h1, h2]
    rw [edgeCount, hempty]
    simp

/-- Strict convexity of the vertex cycle with orientation sign `s`
(`s = 1`: counterclockwise, `s = -1`: clockwise): every vertex lies
strictly on the inner side of every directed edge it does not belong to.
This is the standard non-degenerate reading of "convex polygon" (no three
collinear vertices, no repeated vertices, single traversal). -/
def convexStrict (s : ℚ) (poly : List Pt) : Prop :=
  ∀ i, i < poly.length → ∀ k, k < poly.length →
    k ≠ i → k ≠ (i + 1) % poly.length →
    0 < s * cross (vget poly (i+1) - vget poly i) (vget poly k - vget poly i)

/-- The point lies strictly on the inner side of every edge — "strictly
inside" the polygon of orientation `s`. -/
def strictlyInside (s : ℚ) (p : Pt) (poly : List Pt) : Prop :=
  ∀ i, i < poly.length →
    0 < s * cross (vget poly (i+1) - vget poly i) (p - vget poly i)

theorem cross_add_right (u w : Pt) : cross u (w + u) = cross u w := by
  simp only [cross, Prod.fst_add, Prod.snd_add]
  ring

theorem third_index (n i a : ℕ) (hn : 3 ≤ n) (hi : i < n) (ha : a < n) :
    ∃ k, k < n ∧ k ≠ i ∧ k ≠ a := by
  by_cases h0 : 0 ≠ i ∧ 0 ≠ a
  · exact ⟨0, by omega, h0.1, h0.2⟩
  · by_cases h1 : 1 ≠ i ∧ 1 ≠ a
    · exact ⟨1, by omega, h1.1, h1.2⟩
    · push_neg at h0 h1
      refine ⟨2, by omega, ?_, ?_⟩ <;> omega

theorem adj_distinct (poly : List Pt) (s : ℚ) (hn : 3 ≤ poly.length)
    (hconv : convexStrict s poly) :
    ∀ i, i < poly.length → vget poly i ≠ vget poly (i+1) := by
  intro i hi heq
  obtain ⟨k, hk, hki, hka⟩ := third_index poly.length i ((i+1) % poly.length)
    hn hi (Nat.mod_lt _ (by omega))
  have h := hconv i hi k hk hki hka
  rw [show vget poly (i+1) - vget poly i = 0 from sub_eq_zero.mpr heq.symm] at h
  simp [cross] at h

theorem horiz_case (s e1 P2 w2 : ℚ) (h1 : 0 < s * (e1 * P2))
    (h2 : 0 < s * (e1 * w2)) (hPw : P2 * w2 ≤ 0) : False := by
  nlinarith [mul_pos h1 h2, hPw, sq_nonneg (s * e1)]

theorem slant_max (s : ℚ) (u d P : Pt) (hu : 0 < s * cross u P)
    (hd : 0 < s * cross d P) (hturn : 0 < s * cross u d)
    (hP2 : 0 ≤ P.2) (hu2 : 0 < u.2) (hd2 : d.2 < 0) : False := by
  have hId : s * cross u P * (-d.2) + s * cross d P * u.2 + s * cross u d * P.2
      = 0 := by
    simp only [cross]
    ring
  nlinarith [mul_pos hu (show (0:ℚ) < -d.2 by linarith),
    mul_pos hd hu2, mul_nonneg hturn.le hP2, hId]

theorem slant_min (s : ℚ) (u d P : Pt) (hu : 0 < s * cross u P)
    (hd : 0 < s * cross d P) (hturn : 0 < s * cross u d)
    (hP2 : P.2 ≤ 0) (hu2 : u.2 < 0) (hd2 : 0 < d.2) : False := by
  have hId : s * cross u P * d.2 + s * cross d P * (-u.2)
      + s * cross u d * (-P.2) = 0 := by
    simp only [cross]
    ring
  nlinarith [mul_pos hu hd2, mul_pos hd (show (0:ℚ) < -u.2 by linarith),
    mul_nonneg hturn.le (show (0:ℚ) ≤ -P.2 by linarith), hId]

theorem vget_pred_succ (poly : List Pt) (m : ℕ) (h : 0 < poly.length) :
    vget poly ((m + poly.length - 1) % poly.length + 1) = vget poly m := by
  rw [vget_mod_add, show m + poly.length - 1 + 1 = m + poly.length by omega,
    vget_add_length]

theorem succ_mod_val (n m : ℕ) (hm : m < n) :
    (m + 1) % n = if m + 1 = n then 0 else m + 1 := by
  split_ifs with h
  · rw [h, Nat.mod_self]
  · exact Nat.mod_eq_of_lt (by omega)

theorem pred_mod_val (n m : ℕ) (hn : 0 < n) (hm : m < n) :
    (m + n - 1) % n = if m = 0 then n - 1 else m - 1 := by
  split_ifs with h
  · subst h
    rw [Nat.zero_add, Nat.mod_eq_of_lt (by omega)]
  · rw [show m + n - 1 = (m - 1) + n by omega, Nat.add_mod_right,
      Nat.mod_eq_of_lt (by omega)]

/-- A point strictly inside a strictly convex polygon cannot lie on or above
every vertex: some vertex is strictly higher. -/
theorem inside_not_all_le (poly : List Pt) (p : Pt) (s : ℚ)
    (hn : 3 ≤ poly.length) (hconv : convexStrict s poly)
    (hin : strictlyInside s p poly) :
    ¬ (∀ k, k < poly.length → (vget poly k).2 ≤ p.2) := by
  intro hall
  have hn0 : 0 < poly.length := by omega
  obtain ⟨m, hmmem, hmax⟩ := Finset.exists_max_image (Finset.range poly.length)
    (fun i => (vget poly i).2) ⟨0, Finset.mem_range.mpr hn0⟩
  rw [Finset.mem_range] at hmmem
  have hmax' : ∀ k, k < poly.length → (vget poly k).2 ≤ (vget poly m).2 :=
    fun k hk => hmax k (Finset.mem_range.mpr hk)
  have hpred : (m + poly.length - 1) % poly.length < poly.length :=
    Nat.mod_lt _ hn0
  have hsucc : (m + 1) % poly.length < poly.length := Nat.mod_lt _ hn0
  have hinA : 0 < s * cross (vget poly m - vget poly (m + poly.length - 1))
      (p - vget poly (m + poly.length - 1)) := by
    have h := hin _ hpred
    rwa [vget_pred_succ poly m hn0, vget_mod] at h
  have hinB : 0 < s * cross (vget poly (m+1) - vget poly m) (p - vget poly m) :=
    hin m hmmem
  have hne2 : (m + 1) % poly.length ≠ m := by
    rw [succ_mod_val _ _ hmmem]
    split_ifs <;> omega
  have hne1 : (m + 1) % poly.length ≠ (m + poly.length - 1) % poly.length := by
    rw [succ_mod_val _ _ hmmem, pred_mod_val _ _ hn0 hmmem]
    split_ifs <;> omega
  have hturn : 0 < s * cross (vget poly m - vget poly (m + poly.length - 1))
      (vget poly (m+1) - vget poly (m + poly.length - 1)) := by
    have h := hconv _ hpred _ hsucc hne1
      (by rw [mod_succ_pred poly.length m hn0 hmmem]; exact hne2)
    rwa [vget_pred_succ poly m hn0, vget_mod, vget_mod] at h
  have hyA : (vget poly (m + poly.length - 1)).2 ≤ (vget poly m).2 := by
    have h := hmax' _ hpred
    rwa [vget_mod] at h
  have hyC : (vget poly (m+1)).2 ≤ (vget poly m).2 := by
    have h := hmax' _ hsucc
    rwa [vget_mod] at h
  have hyP : (vget poly m).2 ≤ p.2 := hall m hmmem
  rcases eq_or_lt_of_le hyA with hAeq | hAlt
  · obtain ⟨kk, hkk, hkkp, hkkm⟩ := third_index poly.length
      ((m + poly.length - 1) % poly.length) m hn hpred hmmem
    have hconvH := hconv _ hpred kk hkk hkkp
      (by rw [mod_succ_pred poly.length m hn0 hmmem]; exact hkkm)
    rw [vget_pred_succ poly m hn0, vget_mod] at hconvH
    have hu20 : (vget poly m - vget poly (m + poly.length - 1)).2 = 0 := by
      rw [Prod.snd_sub]
      linarith
    have he1 : cross (vget poly m - vget poly (m + poly.length - 1))
        (p - vget poly (m + poly.length - 1))
        = (vget poly m - vget poly (m + poly.length - 1)).1
          * ((p - vget poly (m + poly.length - 1)).2) := by
      rw [cross, hu20]
      ring
    have he2 : cross (vget poly m - vget poly (m + poly.length - 1))
        (vget poly kk - vget poly (m + poly.length - 1))
        = (vget poly m - vget poly (m + poly.length - 1)).1
          * ((vget poly kk - vget poly (m + poly.length - 1)).2) := by
      rw [cross, hu20]
      ring
    apply horiz_case s (vget poly m - vget poly (m + poly.length - 1)).1
      ((p - vget poly (m + poly.length - 1)).2)
      ((vget poly kk - vget poly (m + poly.length - 1)).2)
    · rw [he1] at hinA
      exact hinA
    · rw [he2] at hconvH
      exact hconvH
    · have hP2 : 0 ≤ (p - vget poly (m + poly.length - 1)).2 := by
        rw [Prod.snd_sub]
        linarith
      have hw2 : (vget poly kk - vget poly (m + poly.length - 1)).2 ≤ 0 := by
        rw [Prod.snd_sub]
        have := hmax' kk hkk
        linarith
      nlinarith [hP2, hw2]
  · rcases eq_or_lt_of_le hyC with hCeq | hClt
    · obtain ⟨kk, hkk, hkkm, hkks⟩ := third_index poly.length m
        ((m+1) % poly.length) hn hmmem hsucc
      have hconvH := hconv m hmmem kk hkk hkkm hkks
      have hd20 : (vget poly (m+1) - vget poly m).2 = 0 := by
        rw [Prod.snd_sub]
        linarith
      have he1 : cross (vget poly (m+1) - vget poly m) (p - vget poly m)
          = (vget poly (m+1) - vget poly m).1 * ((p - vget poly m).2) := by
        rw [cross, hd20]
        ring
      have he2 : cross (vget poly (m+1) - vget poly m)
          (vget poly kk - vget poly m)
          = (vget poly (m+1) - vget poly m).1
            * ((vget poly kk - vget poly m).2) := by
        rw [cross, hd20]
        ring
      apply horiz_case s (vget poly (m+1) - vget poly m).1
        ((p - vget poly m).2) ((vget poly kk - vget poly m).2)
      · rw [he1] at hinB
        exact hinB
      · rw [he2] at hconvH
        exact hconvH
      · have hP2 : 0 ≤ (p - vget poly m).2 := by
          rw [Prod.snd_sub]
          linarith
        have hw2 : (vget poly kk - vget poly m).2 ≤ 0 := by
          rw [Prod.snd_sub]
          have := hmax' kk hkk
          linarith
        nlinarith [hP2, hw2]
    · have hu : 0 < s * cross (vget poly m - vget poly (m + poly.length - 1))
          (p - vget poly m) := by
        have h4 : p - vget poly (m + poly.length - 1)
            = (p - vget poly m)
              + (vget poly m - vget poly (m + poly.length - 1)) :=
          (sub_add_sub_cancel p (vget poly m)
            (vget poly (m + poly.length - 1))).symm
        rw [h4, cross_add_right] at hinA
        exact hinA
      have hturn' : 0 < s * cross
          (vget poly m - vget poly (m + poly.length - 1))
          (vget poly (m+1) - vget poly m) := by
        have h4 : vget poly (m+1) - vget poly (m + poly.length - 1)
            = (vget poly (m+1) - vget poly m)
              + (vget poly m - vget poly (m + poly.length - 1)) :=
          (sub_add_sub_cancel (vget poly (m+1)) (vget poly m)
            (vget poly (m + poly.length - 1))).symm
        rw [h4, cross_add_right] at hturn
        exact hturn
      exact slant_max s (vget poly m - vget poly (m + poly.length - 1))
        (vget poly (m+1) - vget poly m) (p - vget poly m) hu hinB hturn'
        (by rw [Prod.snd_sub]; linarith)
        (by rw [Prod.snd_sub]; linarith)
        (by rw [Prod.snd_sub]; linarith)

/-- A point strictly inside a strictly convex polygon cannot lie strictly
below every vertex's... mirror of `inside_not_all_le`: some vertex is at or
below the query height. -/
theorem inside_not_all_gt (poly : List Pt) (p : Pt) (s : ℚ)
    (hn : 3 ≤ poly.length) (hconv : convexStrict s poly)
    (hin : strictlyInside s p poly) :
    ¬ (∀ k, k < poly.length → p.2 < (vget poly k).2) := by
  intro hall
  have hn0 : 0 < poly.length := by omega
  obtain ⟨m, hmmem, hmin⟩ := Finset.exists_min_image (Finset.range poly.length)
    (fun i => (vget poly i).2) ⟨0, Finset.mem_range.mpr hn0⟩
  rw [Finset.mem_range] at hmmem
  have hmin' : ∀ k, k < poly.length → (vget poly m).2 ≤ (vget poly k).2 :=
    fun k hk => hmin k (Finset.mem_range.mpr hk)
  have hpred : (m + poly.length - 1) % poly.length < poly.length :=
    Nat.mod_lt _ hn0
  have hsucc : (m + 1) % poly.length < poly.length := Nat.mod_lt _ hn0
  have hinA : 0 < s * cross (vget poly m - vget poly (m + poly.length - 1))
      (p - vget poly (m + poly.length - 1)) := by
    have h := hin _ hpred
    rwa [vget_pred_succ poly m hn0, vget_mod] at h
  have hinB : 0 < s * cross (vget poly (m+1) - vget poly m) (p - vget poly m) :=
    hin m hmmem
  have hne2 : (m + 1) % poly.length ≠ m := by
    rw [succ_mod_val _ _ hmmem]
    split_ifs <;> omega
  have hne1 : (m + 1) % poly.length ≠ (m + poly.length - 1) % poly.length := by
    rw [succ_mod_val _ _ hmmem, pred_mod_val _ _ hn0 hmmem]
    split_ifs <;> omega
  have hturn : 0 < s * cross (vget poly m - vget poly (m + poly.length - 1))
      (vget poly (m+1) - vget poly (m + poly.length - 1)) := by
    have h := hconv _ hpred _ hsucc hne1
      (by rw [mod_succ_pred poly.length m hn0 hmmem]; exact hne2)
    rwa [vget_pred_succ poly m hn0, vget_mod, vget_mod] at h
  have hyA : (vget poly m).2 ≤ (vget poly (m + poly.length - 1)).2 := by
    have h := hmin' _ hpred
    rwa [vget_mod] at h
  have hyC : (vget poly m).2 ≤ (vget poly (m+1)).2 := by
    have h := hmin' _ hsucc
    rwa [vget_mod] at h
  have hyP : p.2 < (vget poly m).2 := hall m hmmem
  rcases eq_or_lt_of_le hyA with hAeq | hAlt
  · obtain ⟨kk, hkk, hkkp, hkkm⟩ := third_index poly.length
      ((m + poly.length - 1) % poly.length) m hn hpred hmmem
    have hconvH := hconv _ hpred kk hkk hkkp
      (by rw [mod_succ_pred poly.length m hn0 hmmem]; exact hkkm)
    rw [vget_pred_succ poly m hn0, vget_mod] at hconvH
    have hu20 : (vget poly m - vget poly (m + poly.length - 1)).2 = 0 := by
      rw [Prod.snd_sub]
      linarith
    have he1 : cross (vget poly m - vget poly (m + poly.length - 1))
        (p - vget poly (m + poly.length - 1))
        = (vget poly m - vget poly (m + poly.length - 1)).1
          * ((p - vget poly (m + poly.length - 1)).2) := by
      rw [cross, hu20]
      ring
    have he2 : cross (vget poly m - vget poly (m + poly.length - 1))
        (vget poly kk - vget poly (m + poly.length - 1))
        = (vget poly m - vget poly (m + poly.length - 1)).1
          * ((vget poly kk - vget poly (m + poly.length - 1)).2) := by
      rw [cross, hu20]
      ring
    apply horiz_case s (vget poly m - vget poly (m + poly.length - 1)).1
      ((p - vget poly (m + poly.length - 1)).2)
      ((vget poly kk - vget poly (m + poly.length - 1)).2)
    · rw [he1] at hinA
      exact hinA
    · rw [he2] at hconvH
      exact hconvH
    · have hP2 : (p - vget poly (m + poly.length - 1)).2 ≤ 0 := by
        rw [Prod.snd_sub]
        linarith
      have hw2 : 0 ≤ (vget poly kk - vget poly (m + poly.length - 1)).2 := by
        rw [Prod.snd_sub]
        have := hmin' kk hkk
        linarith
      nlinarith [hP2, hw2]
  · rcases eq_or_lt_of_le hyC with hCeq | hClt
    · obtain ⟨kk, hkk, hkkm, hkks⟩ := third_index poly.length m
        ((m+1) % poly.length) hn hmmem hsucc
      have hconvH := hconv m hmmem kk hkk hkkm hkks
      have hd20 : (vget poly (m+1) - vget poly m).2 = 0 := by
        rw [Prod.snd_sub]
        linarith
      have he1 : cross (vget poly (m+1) - vget poly m) (p - vget poly m)
          = (vget poly (m+1) - vget poly m).1 * ((p - vget poly m).2) := by
        rw [cross, hd20]
        ring
      have he2 : cross (vget poly (m+1) - vget poly m)
          (vget poly kk - vget poly m)
          = (vget poly (m+1) - vget poly m).1
            * ((vget poly kk - vget poly m).2) := by
        rw [cross, hd20]
        ring
      apply horiz_case s (vget poly (m+1) - vget poly m).1
        ((p - vget poly m).2) ((vget poly kk - vget poly m).2)
      · rw [he1] at hinB
        exact hinB
      · rw [he2] at hconvH
        exact hconvH
      · have hP2 : (p - vget poly m).2 ≤ 0 := by
          rw [Prod.snd_sub]
          linarith
        have hw2 : 0 ≤ (vget poly kk - vget poly m).2 := by
          rw [Prod.snd_sub]
          have := hmin' kk hkk
          linarith
        nlinarith [hP2, hw2]
    · have hu : 0 < s * cross (vget poly m - vget poly (m + poly.length - 1))
          (p - vget poly m) := by
        have h4 : p - vget poly (m + poly.length - 1)
            = (p - vget poly m)
              + (vget poly m - vget poly (m + poly.length - 1)) :=
          (sub_add_sub_cancel p (vget poly m)
            (vget poly (m + poly.length - 1))).symm
        rw [h4, cross_add_right] at hinA
        exact hinA
      have hturn' : 0 < s * cross
          (vget poly m - vget poly (m + poly.length - 1))
          (vget poly (m+1) - vget poly m) := by
        have h4 : vget poly (m+1) - vget poly (m + poly.length - 1)
            = (vget poly (m+1) - vget poly m)
              + (vget poly m - vget poly (m + poly.length - 1)) :=
          (sub_add_sub_cancel (vget poly (m+1)) (vget poly m)
            (vget poly (m + poly.length - 1))).symm
        rw [h4, cross_add_right] at hturn
        exact hturn
      exact slant_min s (vget poly m - vget poly (m + poly.length - 1))
        (vget poly (m+1) - vget poly m) (p - vget poly m) hu hinB hturn'
        (by rw [Prod.snd_sub]; linarith)
        (by rw [Prod.snd_sub]; linarith)
        (by rw [Prod.snd_sub]; linarith)

/-- On an `n`-periodic boolean sequence that takes both values on `[0, n)`,
some position in `[0, n)` is a false-to-true transition. -/
theorem cyclic_exists_transition (n : ℕ) (b : ℕ → Bool)
    (hper : ∀ a, b (a + n) = b a) (hn : 0 < n)
    (i : ℕ) (hi : i < n) (hbi : b i = false)
    (k : ℕ) (hk : k < n) (hbk : b k = true) :
    ∃ j, j < n ∧ b j = false ∧ b (j + 1) = true := by
  by_contra hno
  push_neg at hno
  have hmod : ∀ a, b (a % n) = b a := by
    intro a
    induction a using Nat.strong_induction_on with
    | _ a ih =>
      rcases Nat.lt_or_ge a n with hlt | hge
      · rw [Nat.mod_eq_of_lt hlt]
      · have hrec : b a = b (a - n) := by
          rw [← hper (a - n), show a - n + n = a by omega]
        rw [Nat.mod_eq_sub_mod hge, ih (a - n) (by omega), hrec]
  have hstep : ∀ j, b j = false → b (j + 1) = false := by
    intro j hbj
    have hj' : j % n < n := Nat.mod_lt _ hn
    have hbj' : b (j % n) = false := by
      rw [hmod]
      exact hbj
    have hne := hno (j % n) hj' hbj'
    have hb1 : b (j % n + 1) = false := by
      cases hb : b (j % n + 1)
      · rfl
      · exact absurd hb hne
    rw [← hmod (j + 1), show (j + 1) % n = (j % n + 1) % n from
      by rw [Nat.mod_add_mod], hmod]
    exact hb1
  have hallf : ∀ t, b (i + t) = false := by
    intro t
    induction t with
    | zero => exact hbi
    | succ t ih =>
      rw [show i + (t + 1) = (i + t) + 1 by omega]
      exact hstep _ ih
  have hcontra := hallf (k + n - i)
  rw [show i + (k + n - i) = k + n by omega, hper, hbk] at hcontra
  cases hcontra

/-- The vertex-above flags are periodic in the index. -/
theorem bAbove_add_length (poly : List Pt) (y : ℚ) (a : ℕ) :
    bAbove poly y (a + poly.length) = bAbove poly y a := by
  rw [bAbove, bAbove, vget_add_length]

/-- Inside a strictly convex polygon there is an edge that straddles the
horizontal through the query point with the orientation-matching vertical
direction. -/
theorem exists_active_edge (poly : List Pt) (p : Pt) (s : ℚ)
    (hs : s = 1 ∨ s = -1) (hn : 3 ≤ poly.length)
    (hconv : convexStrict s poly) (hin : strictlyInside s p poly) :
    ∃ j, j < poly.length ∧ bAbove poly p.2 j ≠ bAbove poly p.2 (j + 1)
      ∧ 0 < s * ((vget poly (j+1)).2 - (vget poly j).2) := by
  have hn0 : 0 < poly.length := by omega
  obtain ⟨k, hk, hkgt⟩ : ∃ k, k < poly.length ∧ p.2 < (vget poly k).2 := by
    have h := inside_not_all_le poly p s hn hconv hin
    push_neg at h
    obtain ⟨k, hk, hky⟩ := h
    exact ⟨k, hk, by linarith⟩
  obtain ⟨i, hi, hile⟩ : ∃ i, i < poly.length ∧ (vget poly i).2 ≤ p.2 := by
    have h := inside_not_all_gt poly p s hn hconv hin
    push_neg at h
    exact h
  rcases hs with hs1 | hs1
  · obtain ⟨j, hj, hbf, hbt⟩ := cyclic_exists_transition poly.length
      (fun a => bAbove poly p.2 a) (fun a => bAbove_add_length poly p.2 a) hn0
      i hi (by simp only [bAbove, decide_eq_false_iff_not]; linarith)
      k hk (by simp only [bAbove, decide_eq_true_eq]; exact hkgt)
    have hbf' : bAbove poly p.2 j = false := hbf
    have hbt' : bAbove poly p.2 (j + 1) = true := hbt
    refine ⟨j, hj, by rw [hbf', hbt']; decide, ?_⟩
    rw [bAbove, decide_eq_false_iff_not, not_lt] at hbf'
    rw [bAbove, decide_eq_true_eq] at hbt'
    rw [hs1]
    linarith
  · obtain ⟨j, hj, hbf, hbt⟩ := cyclic_exists_transition poly.length
      (fun a => !(bAbove poly p.2 a))
      (fun a => by simp only [bAbove_add_length]) hn0
      k hk (by simp only [bAbove, Bool.not_eq_false', decide_eq_true_eq]; exact hkgt)
      i hi (by simp only [bAbove, Bool.not_eq_true', decide_eq_false_iff_not]; linarith)
    have hbf' : (!(bAbove poly p.2 j)) = false := hbf
    have hbt' : (!(bAbove poly p.2 (j + 1))) = true := hbt
    rw [Bool.not_eq_false'] at hbf'
    rw [Bool.not_eq_true'] at hbt'
    refine ⟨j, hj, by rw [hbf', hbt']; decide, ?_⟩
    rw [bAbove, decide_eq_true_eq] at hbf'
    rw [bAbove, decide_eq_false_iff_not, not_lt] at hbt'
    rw [hs1]
    linarith

/-- An active straddling edge brackets the query height in the direction
determined by the orientation sign. -/
theorem active_pattern (poly : List Pt) (y s : ℚ) (hs : s = 1 ∨ s = -1)
    (j : ℕ) (hstr : bAbove poly y j ≠ bAbove poly y (j + 1))
    (hsd : 0 < s * ((vget poly (j+1)).2 - (vget poly j).2)) :
    (s = 1 ∧ (vget poly j).2 ≤ y ∧ y < (vget poly (j+1)).2)
    ∨ (s = -1 ∧ (vget poly (j+1)).2 ≤ y ∧ y < (vget poly j).2) := by
  cases hbj : bAbove poly y j <;> cases hbj1 : bAbove poly y (j+1)
  · rw [hbj, hbj1] at hstr
    exact absurd rfl hstr
  · rw [bAbove, decide_eq_false_iff_not, not_lt] at hbj
    rw [bAbove, decide_eq_true_eq] at hbj1
    rcases hs with h1 | h1
    · exact Or.inl ⟨h1, hbj, hbj1⟩
    · subst h1
      exfalso
      linarith
  · rw [bAbove, decide_eq_true_eq] at hbj
    rw [bAbove, decide_eq_false_iff_not, not_lt] at hbj1
    rcases hs with h1 | h1
    · subst h1
      exfalso
      linarith
    · exact Or.inr ⟨h1, hbj1, hbj⟩
  · rw [hbj, hbj1] at hstr
    exact absurd rfl hstr

/-- Core sign computation for the uniqueness of the active edge: the
convex-combination expression of two inner-side values is positive. -/
theorem W_pos (s y yk yk1 F1 F2 : ℚ)
    (hcase : (s = 1 ∧ yk ≤ y ∧ y < yk1) ∨ (s = -1 ∧ yk1 ≤ y ∧ y < yk))
    (hF1 : 0 < s * F1) (hF2 : 0 < s * F2) :
    0 < (yk1 - y) * F1 + (y - yk) * F2 := by
  rcases hcase with ⟨h1, ha, hb⟩ | ⟨h1, ha, hb⟩ <;> subst h1
  · nlinarith [mul_pos (show (0:ℚ) < yk1 - y by linarith) hF1,
      mul_nonneg (show (0:ℚ) ≤ y - yk by linarith) hF2.le]
  · nlinarith [mul_nonneg (show (0:ℚ) ≤ y - yk1 by linarith)
      (show (0:ℚ) ≤ -F1 by linarith),
      mul_pos (show (0:ℚ) < yk - y by linarith)
      (show (0:ℚ) < -F2 by linarith)]

/-- In a strictly convex polygon at most one edge is an active straddle for
a given query point. -/
theorem active_unique (poly : List Pt) (p : Pt) (s : ℚ)
    (hs : s = 1 ∨ s = -1) (hn : 3 ≤ poly.length)
    (hconv : convexStrict s poly)
    (j k : ℕ) (hj : j < poly.length) (hk : k < poly.length)
    (haj : bAbove poly p.2 j ≠ bAbove poly p.2 (j + 1)
      ∧ 0 < s * ((vget poly (j+1)).2 - (vget poly j).2))
    (hak : bAbove poly p.2 k ≠ bAbove poly p.2 (k + 1)
      ∧ 0 < s * ((vget poly (k+1)).2 - (vget poly k).2)) :
    j = k := by
  have hn0 : 0 < poly.length := by omega
  have hcasej := active_pattern poly p.2 s hs j haj.1 haj.2
  have hcasek := active_pattern poly p.2 s hs k hak.1 hak.2
  by_contra hjk
  by_cases hadj1 : k = (j+1) % poly.length
  · have he : vget poly k = vget poly (j+1) := by rw [hadj1, vget_mod]
    rcases hcasej with ⟨hs1, hj1, hj2⟩ | ⟨hs1, hj1, hj2⟩
    · rcases hcasek with ⟨hs2, hk1, hk2⟩ | ⟨hs2, hk1, hk2⟩
      · rw [he] at hk1
        linarith
      · rw [hs1] at hs2
        norm_num at hs2
    · rcases hcasek with ⟨hs2, hk1, hk2⟩ | ⟨hs2, hk1, hk2⟩
      · rw [hs1] at hs2
        norm_num at hs2
      · rw [he] at hk2
        linarith
  · by_cases hadj2 : j = (k+1) % poly.length
    · have he : vget poly j = vget poly (k+1) := by rw [hadj2, vget_mod]
      rcases hcasej with ⟨hs1, hj1, hj2⟩ | ⟨hs1, hj1, hj2⟩
      · rcases hcasek with ⟨hs2, hk1, hk2⟩ | ⟨hs2, hk1, hk2⟩
        · rw [he] at hj1
          linarith
        · rw [hs1] at hs2
          norm_num at hs2
      · rcases hcasek with ⟨hs2, hk1, hk2⟩ | ⟨hs2, hk1, hk2⟩
        · rw [hs1] at hs2
          norm_num at hs2
        · rw [he] at hj2
          linarith
    · have hkj : k ≠ j := fun he => hjk he.symm
      have hsucck : (k+1) % poly.length < poly.length := Nat.mod_lt _ hn0
      have hsuccj : (j+1) % poly.length < poly.length := Nat.mod_lt _ hn0
      have hmodinj : ¬ ((k+1) % poly.length = (j+1) % poly.length) := by
        intro he
        apply hjk
        have h1 := mod_pred_succ poly.length k hn0 hk
        have h2 := mod_pred_succ poly.length j hn0 hj
        rw [he, h2] at h1
        exact h1
      have hF1 := hconv j hj k hk hkj hadj1
      have hF2 : 0 < s * cross (vget poly (j+1) - vget poly j)
          (vget poly (k+1) - vget poly j) := by
        have h := hconv j hj ((k+1) % poly.length) hsucck
          (fun he => hadj2 he.symm) hmodinj
        rwa [vget_mod] at h
      have hG1 := hconv k hk j hj hjk hadj2
      have hG2 : 0 < s * cross (vget poly (k+1) - vget poly k)
          (vget poly (j+1) - vget poly k) := by
        have h := hconv k hk ((j+1) % poly.length) hsuccj
          (fun he => hadj1 he.symm) (fun he => hmodinj he.symm)
        rwa [vget_mod] at h
      have hW := W_pos s p.2 (vget poly k).2 (vget poly (k+1)).2
        (cross (vget poly (j+1) - vget poly j) (vget poly k - vget poly j))
        (cross (vget poly (j+1) - vget poly j) (vget poly (k+1) - vget poly j))
        hcasek hF1 hF2
      have hW' := W_pos s p.2 (vget poly j).2 (vget poly (j+1)).2
        (cross (vget poly (k+1) - vget poly k) (vget poly j - vget poly k))
        (cross (vget poly (k+1) - vget poly k) (vget poly (j+1) - vget poly k))
        hcasej hG1 hG2
      have hWW : ((vget poly (k+1)).2 - p.2)
            * cross (vget poly (j+1) - vget poly j) (vget poly k - vget poly j)
          + (p.2 - (vget poly k).2)
            * cross (vget poly (j+1) - vget poly j)
              (vget poly (k+1) - vget poly j)
          + (((vget poly (j+1)).2 - p.2)
            * cross (vget poly (k+1) - vget poly k) (vget poly j - vget poly k)
          + (p.2 - (vget poly j).2)
            * cross (vget poly (k+1) - vget poly k)
              (vget poly (j+1) - vget poly k)) = 0 := by
        simp only [cross, Prod.fst_sub, Prod.snd_sub]
        ring
      linarith [hW, hW', hWW]

/-- For a point strictly inside, an edge's ray-cast test fires exactly when
the edge is an active straddle. -/
theorem edgeCond_iff_active (poly : List Pt) (p : Pt) (s : ℚ)
    (hs : s = 1 ∨ s = -1) (hin : strictlyInside s p poly)
    (j : ℕ) (hj : j < poly.length) :
    (edgeCond p poly j = true ↔
      (bAbove poly p.2 j ≠ bAbove poly p.2 (j + 1)
        ∧ 0 < s * ((vget poly (j+1)).2 - (vget poly j).2))) := by
  have hinj := hin j hj
  constructor
  · intro h
    have hstr := edgeCond_true_straddle p poly j h
    have hcond := (edgeCond_iff_of_straddle p poly j hstr).mp h
    refine ⟨hstr, ?_⟩
    rcases hs with h1 | h1 <;> subst h1 <;> nlinarith [hinj, hcond]
  · rintro ⟨hstr, hsd⟩
    rw [edgeCond_iff_of_straddle p poly j hstr]
    rcases hs with h1 | h1 <;> subst h1 <;> nlinarith [hinj, hsd]

/-- The ray-cast test returns `true` for any point strictly inside a
strictly convex polygon: exactly one edge test fires. -/
theorem pip_inside_convex (poly : List Pt) (p : Pt) (s : ℚ)
    (hs : s = 1 ∨ s = -1) (hn : 3 ≤ poly.length)
    (hconv : convexStrict s poly) (hin : strictlyInside s p poly) :
    isPointInPolygon p poly = true := by
  rw [isPointInPolygon_eq_parity, decide_eq_true_eq]
  suffices h : edgeCount p poly = 1 by rw [h]; exact odd_one
  obtain ⟨j0, hj0, hstr0, hsd0⟩ := exists_active_edge poly p s hs hn hconv hin
  have hset : (Finset.range poly.length).filter
      (fun j => edgeCond p poly j = true) = {j0} := by
    rw [Finset.eq_singleton_iff_unique_mem]
    constructor
    · rw [Finset.mem_filter, Finset.mem_range]
      exact ⟨hj0, (edgeCond_iff_active poly p s hs hin j0 hj0).mpr
        ⟨hstr0, hsd0⟩⟩
    · intro x hx
      rw [Finset.mem_filter, Finset.mem_range] at hx
      have hax := (edgeCond_iff_active poly p s hs hin x hx.1).mp hx.2
      exact active_unique poly p s hs hn hconv x j0 hx.1 hj0 hax ⟨hstr0, hsd0⟩
  rw [edgeCount, hset]
  exact Finset.card_singleton j0

/-- C5: `isPointInPolygon` returns `true` for every point strictly inside a
convex polygon (a strictly convex vertex cycle of either orientation, at
least 3 vertices, with the point strictly on the inner side of every edge),
and returns `false` for every point of any polygon whose x- or y-coordinate
lies strictly outside the polygon's bounding box. -/
theorem c5_pointInPolygon (poly : List Pt) (p : Pt) :
    ((3 ≤ poly.length ∧ ∃ s : ℚ, (s = 1 ∨ s = -1)
        ∧ convexStrict s poly ∧ strictlyInside s p poly)
      → isPointInPolygon p poly = true)
    ∧ (((∀ v ∈ poly, p.1 < v.1) ∨ (∀ v ∈ poly, v.1 < p.1)
        ∨ (∀ v ∈ poly, p.2 < v.2) ∨ (∀ v ∈ poly, v.2 < p.2))
      → isPointInPolygon p poly = false) := by
  constructor
  · rintro ⟨hn, s, hs, hconv, hin⟩
    exact pip_inside_convex poly p s hs hn hconv hin
  · exact pip_outside_bbox p poly

theorem c5_pointInPolygon_witness :
    isPointInPolygon (1, 1) [((0:ℚ),(0:ℚ)), (4,0), (4,4), (0,4)] = true
    ∧ isPointInPolygon (5, 5) [((0:ℚ),(0:ℚ)), (4,0), (4,4), (0,4)] = false := by
  have hconv : convexStrict 1 [((0:ℚ),(0:ℚ)), (4,0), (4,4), (0,4)] := by
    unfold convexStrict
    intro i hi k hk h1 h2
    have hi' : i < 4 := by simpa using hi
    have hk' : k < 4 := by simpa using hk
    interval_cases i <;> interval_cases k <;>
      norm_num [vget, cross] at h1 h2 ⊢
  have hin : strictlyInside 1 ((1:ℚ),(1:ℚ))
      [((0:ℚ),(0:ℚ)), (4,0), (4,4), (0,4)] := by
    unfold strictlyInside
    intro i hi
    have hi' : i < 4 := by simpa using hi
    interval_cases i <;> norm_num [vget, cross]
  constructor
  · exact (c5_pointInPolygon [((0:ℚ),(0:ℚ)), (4,0), (4,4), (0,4)] (1,1)).1
      ⟨by norm_num, 1, Or.inl rfl, hconv, hin⟩
  · exact (c5_pointInPolygon [((0:ℚ),(0:ℚ)), (4,0), (4,4), (0,4)] (5,5)).2
      (Or.inr (Or.inl (by norm_num)))
